import Mathlib

/-!
# Verification of the `ts_utils` interactive timeseries visualization core

Shallow embedding of the Python sources under `src/ts_utils/`:

* `core/data_manager.py` — pagination over the sorted unique series-id list
  (`get_paginated_ids`), key-set row filtering (`get_ts_data`), and the
  exception group-sum aggregation (`get_aggregated_exceptions`).
* `visualization/callbacks.py` — the time-range text parser
  (`parse_time_input`), the time-range update transition
  (`update_time_range`), and the pagination advance transition
  (`handle_next_button`).
* `visualization/app.py` — min-max feature scaling (`_minmax_scale`) and the
  chart builder (`create_figure` / `_add_feature_traces`).
* `api.py` — the companion-option validation in `visualize_timeseries`.

Conventions of the embedding: Python `int` becomes `Int` (with Python list
slice semantics spelled out where the source slices), numeric cell values
become `ℚ` (the claims under verification are exact-arithmetic statements),
`datetime` values become their `(year, month, day, hour, minute, second)`
tuples ordered lexicographically, and a raised `ValueError` becomes an
explicit `raised` constructor.  The two `datetime.strptime` format strings
used by the source (`%Y-%m-%d %H:%M:%S` and `%Y-%m-%d`) are modelled by
executable parsers that follow CPython's `_strptime` regular expressions for
those directives: `%Y` is exactly four digits, `%m`/`%d` are one or two
digits within range, `%H`/`%M`/`%S` are one or two digits within range,
whitespace in the format matches one or more whitespace characters, the
whole string must be consumed, and the resulting calendar date must be valid
(leap years included) or the parse raises and is treated as a failure.
-/

namespace TsUtils

/-! ## Pagination (`core/data_manager.py`, `get_paginated_ids`)

`get_paginated_ids` ends in the Python expression `all_ids[offset:end_idx]`.
`pySlice` is Python's list-slice semantics for `l[i:j]` (step 1): a negative
bound counts from the end of the list, and both bounds are clamped into
`[0, len]`. -/

def pySlice (l : List String) (i j : Int) : List String :=
  let n : Int := l.length
  let i' := if i < 0 then max (n + i) 0 else min i n
  let j' := if j < 0 then max (n + j) 0 else min j n
  (l.drop i'.toNat).take (j' - i').toNat

/-- `TimeseriesDataManager.get_paginated_ids` (data_manager.py lines 90-110),
applied to the cached sorted unique id list `all_ids`. -/
def get_paginated_ids (all_ids : List String) (offset limit : Int) : List String :=
  let offset := if offset < 0 then 0 else offset
  if offset ≥ (all_ids.length : Int) then []
  else
    let end_idx := min (offset + limit) (all_ids.length : Int)
    pySlice all_ids offset end_idx

/-- `handle_next_button` (callbacks.py lines 154-182), the advance-page
transition: compute `new_offset = current_offset + display_count`, fetch that
page, and on an empty result wrap around to offset 0.  The returned pair
`(new_selected_ids, new_offset)` wholly replaces the previous selection and
offset. -/
def handle_next_button (all_ids : List String) (current_offset display_count : Int) :
    List String × Int :=
  let new_offset := current_offset + display_count
  let new_ids := get_paginated_ids all_ids new_offset display_count
  if new_ids.isEmpty then (get_paginated_ids all_ids 0 display_count, 0)
  else (new_ids, new_offset)

/-- One advance step on the reactive state `(selected_ids, current_offset)`;
the Dash callback reads the offset from the store and replaces both cells
with the callback's return value. -/
def advance (all_ids : List String) (display_count : Int)
    (s : List String × Int) : List String × Int :=
  handle_next_button all_ids s.2 display_count

/-! ## Data model for the chart builder (`visualization/app.py`)

A row of the source table, with the role-bound columns of `ColumnConfig`
(config.py) inlined as record fields: `ts_id`, `timestamp`, `actual`,
`forecast`, the nullable `extrema` column, and the feature columns as a
function from the feature column name to its value.  Numeric cells are `ℚ`
(the properties under verification are exact-arithmetic statements), and
timestamps are integers with their usual order. -/

structure Row where
  ts_id : String
  timestamp : Int
  actual : ℚ
  forecast : ℚ
  extrema : Option ℚ
  feats : String → ℚ

/-- The role bindings that `create_figure` consults: whether an extrema
column is configured, and the (possibly empty) list of feature column names.
An unconfigured feature list (`None` in Python) and an empty one behave
identically in the source (`if config.features:`), so both are `[]`. -/
structure ColumnConfig where
  hasExtrema : Bool
  features : List String

inductive TraceKind where
  | actualLine
  | forecastLine
  | extremaMarker
  | featureLine
deriving DecidableEq

/-- One Plotly trace: its kind, legend label, visibility (`false` models the
`'legendonly'` state: present in the legend, hidden from the plot), and its
`(x, y)` data points. -/
structure Trace where
  kind : TraceKind
  name : String
  visible : Bool
  pts : List (Int × ℚ)
deriving DecidableEq

structure Figure where
  title : String
  traces : List Trace
deriving DecidableEq

/-- Executable lexicographic comparison on character lists (by code point),
the order in which the id universe and the series ids of a chart are
sorted. -/
def charListLe : List Char → List Char → Bool
  | [], _ => true
  | _ :: _, [] => false
  | a :: as, b :: bs =>
    if a.toNat < b.toNat then true
    else if a.toNat = b.toNat then charListLe as bs
    else false

def strLe (a b : String) : Bool := charListLe a.data b.data

/-- Sorted distinct values, modelling `series.unique().sort().to_list()`. -/
def unique_sorted (l : List String) : List String :=
  List.insertionSort (fun a b => strLe a b = true) l.dedup

/-- `_minmax_scale` (app.py lines 23-44), per column: `col_min`/`col_max`
are the column's extrema; a column with `col_max != col_min` is mapped
through `(v - col_min) / (col_max - col_min)`, otherwise every entry becomes
the literal `0.5`. -/
def listMin (vals : List ℚ) : ℚ := vals.foldl min (vals.headD 0)

def listMax (vals : List ℚ) : ℚ := vals.foldl max (vals.headD 0)

def minmax_scale_col (vals : List ℚ) : List ℚ :=
  if listMax vals ≠ listMin vals then
    vals.map (fun v => (v - listMin vals) / (listMax vals - listMin vals))
  else
    vals.map (fun _ => (1 : ℚ) / 2)

/-- Mean of the scaled values of feature column `c` over the rows with
timestamp `t` (the `group_by(timestamp).agg(mean)` of
`_add_feature_traces`). -/
def feature_mean_at (df : List Row) (c : String) (t : Int) : ℚ :=
  let scaled := minmax_scale_col (df.map (fun r => r.feats c))
  let pairs := (df.zip scaled).filter (fun p => p.1.timestamp == t)
  (pairs.map (fun p => p.2)).sum / pairs.length

/-- `_add_feature_traces` (app.py lines 47-94): one line trace per configured
feature column, in order, holding the per-timestamp mean of the min-max
scaled column; the first 5 are visible, the rest are legend-only. -/
def feature_traces (df : List Row) (config : ColumnConfig) : List Trace :=
  let timestamps := List.insertionSort (· ≤ ·) ((df.map (fun r => r.timestamp)).dedup)
  config.features.enum.map (fun p =>
    { kind := TraceKind.featureLine
      name := p.2
      visible := decide (p.1 < 5)
      pts := timestamps.map (fun t => (t, feature_mean_at df p.2 t)) })

/-- The per-series body of the `for ts_id in unique_ids` loop of
`create_figure` / `_create_figure_with_features` (app.py lines 124-167 and
239-273): a solid actual line, a dotted forecast line, and — when an extrema
column is configured and the series has at least one non-null extrema value —
one marker trace over the non-null extrema rows. -/
def series_traces (df : List Row) (config : ColumnConfig) (tid : String) : List Trace :=
  let ts_data := List.insertionSort (fun r s => r.timestamp ≤ s.timestamp)
    (df.filter (fun r => r.ts_id == tid))
  let actualTrace : Trace :=
    { kind := TraceKind.actualLine
      name := tid ++ " (actual)"
      visible := true
      pts := ts_data.map (fun r => (r.timestamp, r.actual)) }
  let forecastTrace : Trace :=
    { kind := TraceKind.forecastLine
      name := tid ++ " (forecast)"
      visible := true
      pts := ts_data.map (fun r => (r.timestamp, r.forecast)) }
  let extremaTraces : List Trace :=
    if config.hasExtrema then
      let extrema_data := ts_data.filter (fun r => r.extrema.isSome)
      if extrema_data.length > 0 then
        [{ kind := TraceKind.extremaMarker
           name := tid ++ " (extrema)"
           visible := true
           pts := extrema_data.map (fun r => (r.timestamp, r.extrema.getD 0)) }]
      else []
    else []
  [actualTrace, forecastTrace] ++ extremaTraces

/-- Whether a series has at least one non-null extrema value among its rows
(the `extrema_data.shape[0] > 0` test of `create_figure`). -/
def has_extrema_data (df : List Row) (tid : String) : Bool :=
  ((df.filter (fun r => r.ts_id == tid)).filter (fun r => r.extrema.isSome)).length > 0

/-- `create_figure` (app.py lines 205-307): an empty row-set yields the
placeholder figure with the no-data title and no traces; otherwise, for each
distinct series id (sorted), the per-series traces, followed by the feature
traces when feature columns are configured (`_create_figure_with_features`
builds the same per-series traces and then appends the feature subplot's
traces; without features the feature list is empty). -/
def create_figure (df : List Row) (config : ColumnConfig) : Figure :=
  if df.isEmpty then
    { title := "No data selected", traces := [] }
  else
    { title := "Timeseries Visualization"
      traces :=
        ((unique_sorted (df.map (fun r => r.ts_id))).map (series_traces df config)).flatten
          ++ feature_traces df config }

/-! ## Row store (`core/data_manager.py`, `get_ts_data`) -/

/-- A data frame: its schema (column names) and its rows. -/
structure Frame where
  schema : List String
  rows : List Row

/-- `TimeseriesDataManager.get_ts_data` (data_manager.py lines 68-88): an
empty id list yields `self._df.limit(0)` — zero rows with the schema intact;
otherwise the rows whose series id is in the requested set, in their original
order, again with the schema intact. -/
def get_ts_data (f : Frame) (ts_ids : List String) : Frame :=
  if ts_ids.isEmpty then { schema := f.schema, rows := [] }
  else { schema := f.schema, rows := f.rows.filter (fun r => ts_ids.contains r.ts_id) }

/-! ## Exception aggregation (`core/data_manager.py`, `ExceptionDataManager`)

A row of the exception table: series id, timestamp, and the exception-count
cell.  The `start_time`/`end_time` strings of the source are parsed into
`datetime` values before any comparison; here the bounds are the parsed
timestamps directly (`none` models an absent/falsy bound, for which the
source adds no filter). -/

structure ExRow where
  ts_id : String
  timestamp : Int
  exception_count : Int
deriving DecidableEq

/-- The time filter of `get_aggregated_exceptions` (data_manager.py lines
162-169): rows are kept in the closed interval, each bound filtering only
when present. -/
def filter_time (rows : List ExRow) (start_time end_time : Option Int) : List ExRow :=
  let q1 := match start_time with
    | some s => rows.filter (fun r => s ≤ r.timestamp)
    | none => rows
  match end_time with
    | some e => q1.filter (fun r => r.timestamp ≤ e)
    | none => q1

/-- The summed exception count of one series over a row list (the
`group_by(ts_id).agg(sum)` cell of one group). -/
def exception_sum (rows : List ExRow) (tid : String) : Int :=
  ((rows.filter (fun r => r.ts_id == tid)).map (fun r => r.exception_count)).sum

/-- `ExceptionDataManager.get_aggregated_exceptions` (data_manager.py lines
147-176): filter to the (closed) time window, group by series id, sum the
count column — one `(ts_id, exception_sum)` row per distinct series id
present in the filtered rows.  Polars leaves the group order unspecified;
the embedding lists the distinct ids in deduplicated order. -/
def get_aggregated_exceptions (rows : List ExRow) (start_time end_time : Option Int) :
    List (String × Int) :=
  let filtered := filter_time rows start_time end_time
  ((filtered.map (fun r => r.ts_id)).dedup).map
    (fun tid => (tid, exception_sum filtered tid))

/-! ## Time-range text parsing (`visualization/callbacks.py`, `parse_time_input`)

`parse_time_input` strips the input and tries
`datetime.strptime(s, '%Y-%m-%d %H:%M:%S')`, then
`datetime.strptime(s, '%Y-%m-%d')`.  CPython's `_strptime` compiles these
formats to regular expressions: `%Y` is exactly four digits, `%m` is
`1[0-2]|0[1-9]|[1-9]`, `%d` is `3[01]|[12]\d|0[1-9]|[1-9]`, `%H` is
`2[0-3]|[0-1]\d|\d`, `%M` and `%S` are `[0-5]\d|\d`, a whitespace character
in the format matches one or more whitespace characters, the match must
consume the whole string, and the matched fields must form a valid calendar
datetime (otherwise the `datetime` constructor raises `ValueError`, caught
by the same `except`).  In each format the character after a 1-or-2-digit
field is a separator or the end of the string — never a digit — so the
regex alternations reduce to the deterministic greedy parsers below. -/

/-- Python `str.strip()` whitespace (space, tab, newline, carriage return,
vertical tab, form feed), which is also what `\s` matches in the format's
whitespace run (ASCII range). -/
def isPySpace (c : Char) : Bool :=
  decide (c.toNat = 32 ∨ c.toNat = 9 ∨ c.toNat = 10 ∨ c.toNat = 13 ∨
    c.toNat = 11 ∨ c.toNat = 12)

def pyStripList (l : List Char) : List Char :=
  ((l.dropWhile isPySpace).reverse.dropWhile isPySpace).reverse

/-- `str.strip()`. -/
def pyStrip (s : String) : String := ⟨pyStripList s.data⟩

/-- Decimal value of a digit character. -/
def dv (c : Char) : Nat := c.toNat - 48

def isDig (c : Char) : Bool := decide (48 ≤ c.toNat ∧ c.toNat ≤ 57)

/-- `%Y`: exactly four digits. -/
def parseYear4 : List Char → Option (Nat × List Char)
  | c1 :: c2 :: c3 :: c4 :: rest =>
    if isDig c1 ∧ isDig c2 ∧ isDig c3 ∧ isDig c4 then
      some (1000 * dv c1 + 100 * dv c2 + 10 * dv c3 + dv c4, rest)
    else none
  | _ => none

/-- `%m`: `1[0-2]|0[1-9]|[1-9]`. -/
def parseMonth : List Char → Option (Nat × List Char)
  | c1 :: c2 :: rest =>
    if isDig c1 ∧ isDig c2 ∧ ((dv c1 = 1 ∧ dv c2 ≤ 2) ∨ (dv c1 = 0 ∧ 1 ≤ dv c2)) then
      some (10 * dv c1 + dv c2, rest)
    else if isDig c1 ∧ 1 ≤ dv c1 then some (dv c1, c2 :: rest)
    else none
  | [c1] => if isDig c1 ∧ 1 ≤ dv c1 then some (dv c1, []) else none
  | [] => none

/-- `%d`: `3[01]|[12]\d|0[1-9]|[1-9]`. -/
def parseDay : List Char → Option (Nat × List Char)
  | c1 :: c2 :: rest =>
    if isDig c1 ∧ isDig c2 ∧
        ((dv c1 = 3 ∧ dv c2 ≤ 1) ∨ (1 ≤ dv c1 ∧ dv c1 ≤ 2) ∨ (dv c1 = 0 ∧ 1 ≤ dv c2)) then
      some (10 * dv c1 + dv c2, rest)
    else if isDig c1 ∧ 1 ≤ dv c1 then some (dv c1, c2 :: rest)
    else none
  | [c1] => if isDig c1 ∧ 1 ≤ dv c1 then some (dv c1, []) else none
  | [] => none

/-- `%H`: `2[0-3]|[0-1]\d|\d`. -/
def parseHour : List Char → Option (Nat × List Char)
  | c1 :: c2 :: rest =>
    if isDig c1 ∧ isDig c2 ∧ ((dv c1 = 2 ∧ dv c2 ≤ 3) ∨ dv c1 ≤ 1) then
      some (10 * dv c1 + dv c2, rest)
    else if isDig c1 then some (dv c1, c2 :: rest)
    else none
  | [c1] => if isDig c1 then some (dv c1, []) else none
  | [] => none

/-- `%M` and `%S`: `[0-5]\d|\d`. -/
def parseMinSec : List Char → Option (Nat × List Char)
  | c1 :: c2 :: rest =>
    if isDig c1 ∧ isDig c2 ∧ dv c1 ≤ 5 then some (10 * dv c1 + dv c2, rest)
    else if isDig c1 then some (dv c1, c2 :: rest)
    else none
  | [c1] => if isDig c1 then some (dv c1, []) else none
  | [] => none

/-- A literal character of the format. -/
def expectChar (ch : Char) : List Char → Option (List Char)
  | c :: rest => if c = ch then some rest else none
  | [] => none

/-- A whitespace run in the format: one or more whitespace characters. -/
def parseSpaces1 : List Char → Option (List Char)
  | c :: rest => if isPySpace c then some (rest.dropWhile isPySpace) else none
  | [] => none

def leap (y : Nat) : Bool := decide ((y % 4 = 0 ∧ ¬ y % 100 = 0) ∨ y % 400 = 0)

def daysInMonth (y m : Nat) : Nat :=
  if m = 2 then (if leap y then 29 else 28)
  else if m = 4 ∨ m = 6 ∨ m = 9 ∨ m = 11 then 30
  else 31

/-- The calendar validation performed by the `datetime` constructor on the
fields matched by the regex (year ≥ 1 and the day within the month; the
regex already bounds month/day/hour/minute/second). -/
def validDate (y m d : Nat) : Bool := decide (1 ≤ y ∧ d ≤ daysInMonth y m)

/-- `datetime.strptime(s, '%Y-%m-%d')` : `some (y, m, d)` on success. -/
def strptimeDate (l : List Char) : Option (Nat × Nat × Nat) :=
  match parseYear4 l with
  | none => none
  | some (y, r1) =>
    match expectChar '-' r1 with
    | none => none
    | some r2 =>
      match parseMonth r2 with
      | none => none
      | some (m, r3) =>
        match expectChar '-' r3 with
        | none => none
        | some r4 =>
          match parseDay r4 with
          | none => none
          | some (d, r5) =>
            if r5 = [] ∧ validDate y m d then some (y, m, d) else none

/-- `datetime.strptime(s, '%Y-%m-%d %H:%M:%S')`. -/
def strptimeFull (l : List Char) : Option (Nat × Nat × Nat × Nat × Nat × Nat) :=
  match parseYear4 l with
  | none => none
  | some (y, r1) =>
    match expectChar '-' r1 with
    | none => none
    | some r2 =>
      match parseMonth r2 with
      | none => none
      | some (m, r3) =>
        match expectChar '-' r3 with
        | none => none
        | some r4 =>
          match parseDay r4 with
          | none => none
          | some (d, r5) =>
            match parseSpaces1 r5 with
            | none => none
            | some r6 =>
              match parseHour r6 with
              | none => none
              | some (hh, r7) =>
                match expectChar ':' r7 with
                | none => none
                | some r8 =>
                  match parseMinSec r8 with
                  | none => none
                  | some (mi, r9) =>
                    match expectChar ':' r9 with
                    | none => none
                    | some r10 =>
                      match parseMinSec r10 with
                      | none => none
                      | some (ss, r11) =>
                        if r11 = [] ∧ validDate y m d then
                          some (y, m, d, hh, mi, ss)
                        else none

/-- The single-quote character of the error message. -/
def squote : String := String.singleton (Char.ofNat 39)

def invalid_format_msg (s : String) : String :=
  "Invalid format: " ++ squote ++ s ++ squote ++
    ". Use YYYY-MM-DD or YYYY-MM-DD HH:MM:SS"

/-- `parse_time_input` (callbacks.py lines 21-51): `None`/empty/whitespace
input falls back to the default with no error; otherwise the stripped text
is tried against the full format (returned unchanged), then the date-only
format (returned with `" 00:00:00"` appended), and otherwise yields no value
and the invalid-format message embedding the stripped text. -/
def parse_time_input (time_str : Option String) (default : Option String) :
    Option String × Option String :=
  match time_str with
  | none => (default, none)
  | some s0 =>
    let t := pyStrip s0
    if t = "" then (default, none)
    else if (strptimeFull t.data).isSome then (some t, none)
    else if (strptimeDate t.data).isSome then (some (t ++ " 00:00:00"), none)
    else (none, some (invalid_format_msg t))

/-- The strict `YYYY-MM-DD` shape of the spec: four digit year, dash,
two-digit month, dash, two-digit day, all fields in range and the date
valid. -/
def strictDate (s : String) : Bool :=
  match s.data with
  | [y1, y2, y3, y4, c1, m1, m2, c2, d1, d2] =>
    isDig y1 && isDig y2 && isDig y3 && isDig y4 && isDig m1 && isDig m2 &&
      isDig d1 && isDig d2 && (c1 == '-') && (c2 == '-') &&
      decide (1 ≤ 10 * dv m1 + dv m2 ∧ 10 * dv m1 + dv m2 ≤ 12) &&
      decide (1 ≤ 10 * dv d1 + dv d2 ∧ 10 * dv d1 + dv d2 ≤ 31) &&
      validDate (1000 * dv y1 + 100 * dv y2 + 10 * dv y3 + dv y4)
        (10 * dv m1 + dv m2) (10 * dv d1 + dv d2)
  | _ => false

/-- The strict `YYYY-MM-DD HH:MM:SS` shape of the spec. -/
def strictFull (s : String) : Bool :=
  match s.data with
  | [y1, y2, y3, y4, c1, m1, m2, c2, d1, d2, sp, h1, h2, c3, i1, i2, c4, s1, s2] =>
    isDig y1 && isDig y2 && isDig y3 && isDig y4 && isDig m1 && isDig m2 &&
      isDig d1 && isDig d2 && isDig h1 && isDig h2 && isDig i1 && isDig i2 &&
      isDig s1 && isDig s2 &&
      (c1 == '-') && (c2 == '-') && (sp == ' ') && (c3 == ':') && (c4 == ':') &&
      decide (1 ≤ 10 * dv m1 + dv m2 ∧ 10 * dv m1 + dv m2 ≤ 12) &&
      decide (1 ≤ 10 * dv d1 + dv d2 ∧ 10 * dv d1 + dv d2 ≤ 31) &&
      decide (10 * dv h1 + dv h2 ≤ 23) &&
      decide (10 * dv i1 + dv i2 ≤ 59) &&
      decide (10 * dv s1 + dv s2 ≤ 59) &&
      validDate (1000 * dv y1 + 100 * dv y2 + 10 * dv y3 + dv y4)
        (10 * dv m1 + dv m2) (10 * dv d1 + dv d2)
  | _ => false

/-! ## The time-range update transition (`update_time_range`)

A Dash callback output is either `no_update` (the corresponding cell keeps
its previous value) or a new value; `Upd.keep` models `no_update`.  The
callback's outputs are `(time-range-store, error-children, start-echo,
end-echo)`.  The stored time range is a `{'start': ..., 'end': ...}` pair of
optional strings. -/

inductive Upd (α : Type) where
  | keep : Upd α
  | set (v : α) : Upd α
deriving DecidableEq

/-- Python `datetime` comparison on the parsed `(y, m, d, hh, mi, ss)`
fields, flattened into one natural number; since every field matched by the
format's regex is below its radix position (month ≤ 12, day ≤ 31, hour ≤ 23,
minute/second ≤ 59 < 100), the flattening is order-isomorphic to the
lexicographic `datetime` order. -/
def dtKey (a : Nat × Nat × Nat × Nat × Nat × Nat) : Nat :=
  ((((a.1 * 100 + a.2.1) * 100 + a.2.2.1) * 100 + a.2.2.2.1) * 100
    + a.2.2.2.2.1) * 100 + a.2.2.2.2.2

/-- `full_range.get('min') if full_range else None`. -/
def fr_min (fr : Option (Option String × Option String)) : Option String :=
  match fr with
  | some p => p.1
  | none => none

/-- `full_range.get('max') if full_range else None`. -/
def fr_max (fr : Option (Option String × Option String)) : Option String :=
  match fr with
  | some p => p.2
  | none => none

/-- `update_time_range` (callbacks.py lines 197-243).  `reset` models
`ctx.triggered_id == 'time-reset-button'`; `full_range` models the
`full-time-range` store (a dict with optional `min`/`max` entries).  Both
inputs are parsed; a parse error on either side aborts the transition with
that error (start first) and every other output kept; when both parsed
values are non-empty strings that the full format accepts and start ≥ end,
the transition aborts with the ordering error (a `ValueError` inside the
ordering check is swallowed by the source's `except: pass`); otherwise the
store is replaced wholesale by the new pair. -/
def update_time_range (start_input end_input : Option String) (reset : Bool)
    (full_range : Option (Option String × Option String)) :
    Upd (Option (Option String × Option String)) × String × Upd String × Upd String :=
  if reset then (Upd.set none, "", Upd.set "", Upd.set "")
  else
    let ps := parse_time_input start_input (fr_min full_range)
    let pe := parse_time_input end_input (fr_max full_range)
    match ps.2 with
    | some err => (Upd.keep, err, Upd.keep, Upd.keep)
    | none =>
      match pe.2 with
      | some err => (Upd.keep, err, Upd.keep, Upd.keep)
      | none =>
        let ordError :=
          match ps.1, pe.1 with
          | some ss, some ee =>
            if ss ≠ "" ∧ ee ≠ "" then
              match strptimeFull ss.data, strptimeFull ee.data with
              | some ds, some de => decide (dtKey de ≤ dtKey ds)
              | _, _ => false
            else false
          | _, _ => false
        if ordError then
          (Upd.keep, "Start time must be before end time", Upd.keep, Upd.keep)
        else (Upd.set (some (ps.1, pe.1)), "", Upd.keep, Upd.keep)

/-! ## Companion-option validation (`api.py`, `visualize_timeseries`) -/

/-- Outcome of constructing the visualization: either a Dash app (carrying
whether the `/exceptions` route is enabled) or a raised `ValueError` that
propagates to the caller — fatal to session startup, never surfaced as an
inline message. -/
inductive ApiOutcome where
  | app (hasExceptionsRoute : Bool)
  | raised (msg : String)
deriving DecidableEq

/-- The companion-option logic of `visualize_timeseries` (api.py lines
217-240): `ranking_geo` is whether `ranking_df` was supplied with both
`latitude` and `longitude` columns (so that `geo_df` was built);
`has_df_exceptions` whether `df_exceptions` was supplied;
`has_exception_count_col` whether `exception_count_col` was supplied.  When
`df_exceptions` is present, a missing `exception_count_col` raises, then a
missing geo ranking raises; when `df_exceptions` is absent, a supplied
`exception_count_col` is silently ignored and the app is built without the
exceptions route. -/
def visualize_companion_validation (ranking_geo has_df_exceptions
    has_exception_count_col : Bool) : ApiOutcome :=
  if has_df_exceptions then
    if has_exception_count_col = false then
      ApiOutcome.raised "exception_count_col is required when df_exceptions is provided"
    else if ranking_geo = false then
      ApiOutcome.raised
        "df_exceptions requires ranking_df with latitude/longitude columns for map display"
    else ApiOutcome.app true
  else ApiOutcome.app false

end TsUtils

namespace TsUtils

lemma pySlice_nonneg (l : List String) (i j : Int) (hi : 0 ≤ i) (hj : 0 ≤ j)
    (hjn : j ≤ (l.length : Int)) :
    pySlice l i j = (l.drop i.toNat).take (j - i).toNat := by
  unfold pySlice
  have h1 : ¬ i < 0 := by omega
  have h2 : ¬ j < 0 := by omega
  simp only [h1, h2, if_false]
  rcases le_or_lt i (l.length : Int) with hin | hin
  · have : min i (l.length : Int) = i := min_eq_left hin
    rw [this, min_eq_left hjn]
  · -- i beyond the length: both sides are empty
    have hd : l.drop i.toNat = [] := by
      apply List.drop_eq_nil_of_le
      omega
    have : min i (l.length : Int) = (l.length : Int) := min_eq_right (le_of_lt hin)
    rw [this, min_eq_left hjn]
    rw [List.drop_eq_nil_of_le (by omega : l.length ≤ ((l.length : Int)).toNat), hd]
    simp

/-- Characterization of the page query for a positive limit: it is exactly
`take limit` of `drop offset` of the id list, with negative offsets clamped
to 0 (`Int.toNat` of a negative offset is 0). -/
lemma get_paginated_ids_pos (all_ids : List String) (offset limit : Int)
    (hl : 0 < limit) :
    get_paginated_ids all_ids offset limit =
      (all_ids.drop offset.toNat).take limit.toNat := by
  simp only [get_paginated_ids]
  rcases lt_or_le offset 0 with ho | ho
  · -- negative offset is clamped to 0
    rw [if_pos ho]
    have hton : offset.toNat = 0 := Int.toNat_of_nonpos (le_of_lt ho)
    rw [hton]
    rcases le_or_lt (all_ids.length : Int) 0 with hn | hn
    · have hnil : all_ids = [] := List.length_eq_zero.mp (by omega)
      simp [hnil]
    · rw [if_neg (by omega : ¬ (0 : Int) ≥ (all_ids.length : Int))]
      rw [pySlice_nonneg _ _ _ le_rfl (le_min (by omega) (by omega)) (min_le_right _ _)]
      simp only [Int.toNat_zero, List.drop_zero, zero_add, Int.sub_zero]
      rcases le_or_lt limit (all_ids.length : Int) with hcmp | hcmp
      · rw [min_eq_left hcmp]
      · rw [min_eq_right (le_of_lt hcmp)]
        rw [List.take_of_length_le (by omega), List.take_of_length_le (by omega)]
  · rw [if_neg (not_lt.mpr ho)]
    rcases le_or_lt (all_ids.length : Int) offset with hn | hn
    · rw [if_pos (by exact hn)]
      rw [List.drop_eq_nil_of_le (by omega), List.take_nil]
    · rw [if_neg (by omega : ¬ offset ≥ (all_ids.length : Int))]
      rw [pySlice_nonneg _ _ _ ho (le_min (by omega) (by omega)) (min_le_right _ _)]
      rcases le_or_lt (offset + limit) (all_ids.length : Int) with hcmp | hcmp
      · rw [min_eq_left hcmp]
        congr 1
        omega
      · rw [min_eq_right (le_of_lt hcmp)]
        rw [List.take_of_length_le (by rw [List.length_drop]; omega),
            List.take_of_length_le (by rw [List.length_drop]; omega)]

/-- Characterization of the page query for a non-positive limit: after the
offset is clamped, the Python slice `all_ids[offset:end_idx]` receives the end
index `offset + limit ≤ offset`.  When that end index is still non-negative
the slice is empty, but when it is negative Python counts it from the end of
the list, yielding the ids from the clamped offset up to `length + limit`. -/
lemma get_paginated_ids_nonpos (all_ids : List String) (offset limit : Int)
    (hl : limit ≤ 0) :
    get_paginated_ids all_ids offset limit =
      if (all_ids.length : Int) ≤ (offset.toNat : Int) then []
      else if 0 ≤ (offset.toNat : Int) + limit then []
      else (all_ids.drop offset.toNat).take ((all_ids.length : Int) + limit).toNat := by
  simp only [get_paginated_ids]
  have hc : (if offset < 0 then 0 else offset) = (offset.toNat : Int) := by
    rcases lt_or_le offset 0 with h | h
    · rw [if_pos h]; omega
    · rw [if_neg (not_lt.mpr h)]; omega
  rw [hc]
  rcases le_or_lt (all_ids.length : Int) (offset.toNat : Int) with hn | hn
  · rw [if_pos (by exact hn), if_pos hn]
  · rw [if_neg (by omega : ¬ (offset.toNat : Int) ≥ (all_ids.length : Int)),
        if_neg (not_le.mpr hn)]
    rw [min_eq_left (by omega : (offset.toNat : Int) + limit ≤ (all_ids.length : Int))]
    simp only [pySlice]
    rw [if_neg (by omega : ¬ (offset.toNat : Int) < 0),
        min_eq_left (le_of_lt hn)]
    rcases le_or_lt 0 ((offset.toNat : Int) + limit) with hj | hj
    · rw [if_pos hj, if_neg (not_lt.mpr hj),
          min_eq_left (by omega : (offset.toNat : Int) + limit ≤ (all_ids.length : Int))]
      rw [show (((offset.toNat : Int) + limit) - (offset.toNat : Int)).toNat = 0 by omega]
      rw [List.take_zero]
    · rw [if_neg (not_le.mpr hj), if_pos hj]
      rw [Int.toNat_natCast]
      congr 1
      omega

/-- For a positive limit, the page is empty iff the (natural-number) offset is
past the end of the id list. -/
lemma get_paginated_ids_empty_iff (all_ids : List String) (k : Nat) (limit : Int)
    (hl : 0 < limit) :
    get_paginated_ids all_ids (k : Int) limit = [] ↔ all_ids.length ≤ k := by
  rw [get_paginated_ids_pos _ _ _ hl]
  simp only [Int.toNat_natCast]
  constructor
  · intro h
    by_contra hlt
    push_neg at hlt
    have hdrop : all_ids.drop k ≠ [] := by
      simp [List.drop_eq_nil_iff]
      omega
    have htake : ((all_ids.drop k).take limit.toNat) ≠ [] := by
      cases hd : all_ids.drop k with
      | nil => exact absurd hd hdrop
      | cons a t =>
        have : 0 < limit.toNat := by omega
        cases hn : limit.toNat with
        | zero => omega
        | succ m => simp [hd, hn]
    exact absurd h htake
  · intro h
    rw [List.drop_eq_nil_of_le h, List.take_nil]

/-- One advance step from a natural-number offset `k`: move forward by
`display_count` unless that runs past the end of the id list, in which case
wrap to offset 0. -/
lemma advance_offset (all_ids : List String) (d : Int) (hd : 0 < d)
    (sel : List String) (k : Nat) :
    advance all_ids d (sel, (k : Int)) =
      if k + d.toNat < all_ids.length then
        (get_paginated_ids all_ids ((k + d.toNat : Nat) : Int) d,
         ((k + d.toNat : Nat) : Int))
      else (get_paginated_ids all_ids 0 d, 0) := by
  unfold advance handle_next_button
  have hcast : (k : Int) + d = ((k + d.toNat : Nat) : Int) := by push_cast; omega
  rw [hcast]
  rcases lt_or_le (k + d.toNat) all_ids.length with h | h
  · have hne : ¬ get_paginated_ids all_ids ((k + d.toNat : Nat) : Int) d = [] := by
      rw [get_paginated_ids_empty_iff _ _ _ hd]; omega
    rw [if_pos h]
    simp only [List.isEmpty_iff, hne, if_false]
  · have he : get_paginated_ids all_ids ((k + d.toNat : Nat) : Int) d = [] := by
      rw [get_paginated_ids_empty_iff _ _ _ hd]; omega
    rw [if_neg (not_lt.mpr h)]
    simp only [he, List.isEmpty_nil, if_true]

/-- After `j ≥ 1` advances from offset 0 (with `j` at most the page count),
the state holds the page at offset `j * display_count`, or has wrapped back to
the offset-0 page if that offset runs past the end. -/
lemma advance_iterate (all_ids : List String) (d : Int) (hd : 0 < d)
    (hne : all_ids ≠ []) (sel0 : List String) (j : Nat) (hj1 : 1 ≤ j)
    (hj2 : j ≤ (all_ids.length - 1) / d.toNat + 1) :
    (advance all_ids d)^[j] (sel0, 0) =
      if j * d.toNat < all_ids.length
      then (get_paginated_ids all_ids ((j * d.toNat : Nat) : Int) d,
            ((j * d.toNat : Nat) : Int))
      else (get_paginated_ids all_ids 0 d, 0) := by
  have hlen : 0 < all_ids.length := by
    cases all_ids with
    | nil => exact absurd rfl hne
    | cons a t => simp
  induction j with
  | zero => omega
  | succ n ih =>
    by_cases hn0 : n = 0
    · subst hn0
      rw [Function.iterate_one]
      have h0 := advance_offset all_ids d hd sel0 0
      simp only [Nat.cast_zero, Nat.zero_add] at h0
      rw [h0]
      simp only [Nat.zero_add, Nat.one_mul]
    · have hn1 : 1 ≤ n := by omega
      rw [Function.iterate_succ_apply', ih hn1 (by omega)]
      have hord : n * d.toNat < all_ids.length := by
        have h1 : n * d.toNat ≤ ((all_ids.length - 1) / d.toNat) * d.toNat :=
          Nat.mul_le_mul_right _ (by omega)
        have h2 : ((all_ids.length - 1) / d.toNat) * d.toNat ≤ all_ids.length - 1 :=
          Nat.div_mul_le_self _ _
        omega
      rw [if_pos hord]
      rw [advance_offset all_ids d hd _ (n * d.toNat)]
      rw [show n * d.toNat + d.toNat = (n + 1) * d.toNat by ring]

/-- The page count `ceil(N / display_count)` times the display count reaches
or passes the end of the list. -/
lemma ceil_mul_ge (N dn : Nat) (hdn : 0 < dn) (hN : 0 < N) :
    N ≤ ((N + dn - 1) / dn) * dn := by
  have hc : (N + dn - 1) / dn = (N - 1) / dn + 1 := by
    rw [show N + dn - 1 = (N - 1) + dn by omega, Nat.add_div_right _ hdn]
  rw [hc]
  have h1 : dn * ((N - 1) / dn) + (N - 1) % dn = N - 1 := Nat.div_add_mod _ _
  have h2 : (N - 1) % dn < dn := Nat.mod_lt _ hdn
  have h3 : ((N - 1) / dn + 1) * dn = dn * ((N - 1) / dn) + dn := by ring
  omega

lemma ceil_eq_pred_div_succ (N dn : Nat) (hdn : 0 < dn) (hN : 0 < N) :
    (N + dn - 1) / dn = (N - 1) / dn + 1 := by
  rw [show N + dn - 1 = (N - 1) + dn by omega, Nat.add_div_right _ hdn]

/-- **C1** (confirmed).  The advance-page transition computes
`new_offset = offset + display_count`, fetches `page(new_offset,
display_count)`, and on an empty page resets to offset 0 and re-fetches
`page(0, display_count)`; the fetched sequence together with the new offset
wholly replaces the previous state (the old selection is not an input of the
transition at all).  Consequently, starting from offset 0 over a non-empty id
universe of size `N` with `display_count > 0`, after exactly
`ceil(N / display_count)` advances the selection is the page at offset 0
again: pagination is cyclic.  (The statement holds for every id list, in
particular for the sorted unique universe `all_ids()`.) -/
theorem C1_advance_page_cyclic (all_ids : List String) (display_count : Int)
    (sel0 : List String) (current_offset : Int)
    (hne : all_ids ≠ []) (hd : 0 < display_count) :
    (handle_next_button all_ids current_offset display_count =
      if get_paginated_ids all_ids (current_offset + display_count) display_count = []
      then (get_paginated_ids all_ids 0 display_count, 0)
      else (get_paginated_ids all_ids (current_offset + display_count) display_count,
            current_offset + display_count))
    ∧ (advance all_ids display_count)^[(all_ids.length + display_count.toNat - 1) /
          display_count.toNat] (sel0, 0) =
        (get_paginated_ids all_ids 0 display_count, 0) := by
  have hlen : 0 < all_ids.length := by
    cases all_ids with
    | nil => exact absurd rfl hne
    | cons a t => simp
  have hdn : 0 < display_count.toNat := by omega
  constructor
  · unfold handle_next_button
    by_cases hemp : get_paginated_ids all_ids (current_offset + display_count) display_count = []
    · rw [if_pos hemp]
      simp only [hemp, List.isEmpty_nil, if_true]
    · rw [if_neg hemp]
      simp only [List.isEmpty_iff, hemp, if_false]
  · rw [ceil_eq_pred_div_succ _ _ hdn hlen]
    rw [advance_iterate all_ids display_count hd hne sel0
        ((all_ids.length - 1) / display_count.toNat + 1) (Nat.le_add_left 1 _) le_rfl]
    have key : all_ids.length ≤
        ((all_ids.length - 1) / display_count.toNat + 1) * display_count.toNat := by
      have := ceil_mul_ge all_ids.length display_count.toNat hdn hlen
      rw [ceil_eq_pred_div_succ _ _ hdn hlen] at this
      exact this
    rw [if_neg (not_lt.mpr key)]

/-- Witness for C1: three ids, `display_count = 2`, so `ceil(3/2) = 2`
advances wrap back to the first page `["a", "b"]`. -/
theorem C1_advance_page_cyclic_witness :
    (handle_next_button ["a", "b", "c"] 7 2 =
      if get_paginated_ids ["a", "b", "c"] (7 + 2) 2 = []
      then (get_paginated_ids ["a", "b", "c"] 0 2, 0)
      else (get_paginated_ids ["a", "b", "c"] (7 + 2) 2, 7 + 2))
    ∧ (advance ["a", "b", "c"] 2)^[(["a", "b", "c"].length + (2 : Int).toNat - 1) /
          (2 : Int).toNat] (["z"], 0) =
        (get_paginated_ids ["a", "b", "c"] 0 2, 0) :=
  C1_advance_page_cyclic ["a", "b", "c"] 2 ["z"] 7 (by decide) (by decide)

/-- **C2** (confirmed).  For a positive limit the page query is exactly
`take limit` of `drop offset` of the id list: it returns up to `limit` ids
starting at the clamped offset, a negative offset behaves as offset 0, and
any offset at or past the end of the list yields the empty sequence. -/
theorem C2_page_query_spec (all_ids : List String) (offset limit : Int)
    (hl : 0 < limit) :
    get_paginated_ids all_ids offset limit =
        (all_ids.drop offset.toNat).take limit.toNat
    ∧ (get_paginated_ids all_ids offset limit).length ≤ limit.toNat
    ∧ (offset < 0 →
        get_paginated_ids all_ids offset limit = get_paginated_ids all_ids 0 limit)
    ∧ ((all_ids.length : Int) ≤ offset → get_paginated_ids all_ids offset limit = []) := by
  have h := get_paginated_ids_pos all_ids offset limit hl
  refine ⟨h, ?_, ?_, ?_⟩
  · rw [h]
    exact List.length_take_le _ _
  · intro hneg
    rw [h, get_paginated_ids_pos all_ids 0 limit hl]
    rw [Int.toNat_of_nonpos (le_of_lt hneg)]
    rfl
  · intro hge
    rw [h, List.drop_eq_nil_of_le (by omega), List.take_nil]

/-- Witness for C2 at a negative offset: `page(-2, 2)` over three ids equals
`page(0, 2) = ["a", "b"]`. -/
theorem C2_page_query_spec_witness :
    (get_paginated_ids ["a", "b", "c"] (-2) 2 =
        (["a", "b", "c"].drop (-2 : Int).toNat).take (2 : Int).toNat
    ∧ (get_paginated_ids ["a", "b", "c"] (-2) 2).length ≤ (2 : Int).toNat
    ∧ ((-2 : Int) < 0 →
        get_paginated_ids ["a", "b", "c"] (-2) 2 = get_paginated_ids ["a", "b", "c"] 0 2)
    ∧ (((["a", "b", "c"] : List String).length : Int) ≤ -2 →
        get_paginated_ids ["a", "b", "c"] (-2) 2 = []))
    ∧ get_paginated_ids ["a", "b", "c"] (-2) 2 = ["a", "b"] :=
  ⟨C2_page_query_spec ["a", "b", "c"] (-2) 2 (by decide), by decide⟩

/-- **C10 counterexample.**  The claim "for every limit ≤ 0 the query returns
the empty list" is false: with three ids, `get_paginated_ids(0, -1)` computes
`end_idx = min(0 + (-1), 3) = -1` and Python's slice `all_ids[0:-1]` counts
the negative end from the end of the list, returning two ids, and in
particular a list of length 2 > max(-1, 0). -/
theorem C10_counterexample :
    get_paginated_ids ["a", "b", "c"] 0 (-1) = ["a", "b"] ∧
    get_paginated_ids ["a", "b", "c"] 0 (-1) ≠ [] := by
  constructor
  · rfl
  · decide

/-- **C10 amended.**  The pagination query is total over all integer inputs
and its result never exceeds the ids remaining after the clamped offset, and
for a positive limit never exceeds `limit`; but for `limit ≤ 0` the result is
empty only when `clamped_offset + limit ≥ 0` — when `clamped_offset + limit`
is negative, Python's negative slice end wraps around the end of the list and
the query returns the ids from the clamped offset up to position
`length + limit`, which can be non-empty (e.g. offset 0, limit −1 over three
ids returns two ids). -/
theorem C10_amended_totality (all_ids : List String) (offset limit : Int) :
    (get_paginated_ids all_ids offset limit).length ≤ all_ids.length - offset.toNat
    ∧ (0 < limit → (get_paginated_ids all_ids offset limit).length ≤ limit.toNat)
    ∧ (limit ≤ 0 → 0 ≤ (offset.toNat : Int) + limit →
        get_paginated_ids all_ids offset limit = [])
    ∧ (limit ≤ 0 → (offset.toNat : Int) + limit < 0 →
        get_paginated_ids all_ids offset limit =
          (all_ids.drop offset.toNat).take ((all_ids.length : Int) + limit).toNat) := by
  refine ⟨?_, ?_, ?_, ?_⟩
  · rcases le_or_lt limit 0 with hl | hl
    · rw [get_paginated_ids_nonpos _ _ _ hl]
      split_ifs with h1 h2
      · simp
      · simp
      · calc ((all_ids.drop offset.toNat).take ((all_ids.length : Int) + limit).toNat).length
            ≤ (all_ids.drop offset.toNat).length := List.length_take_le' ..
          _ = all_ids.length - offset.toNat := List.length_drop _ _
    · rw [get_paginated_ids_pos _ _ _ hl]
      calc ((all_ids.drop offset.toNat).take limit.toNat).length
          ≤ (all_ids.drop offset.toNat).length := List.length_take_le' ..
        _ = all_ids.length - offset.toNat := List.length_drop _ _
  · intro hl
    rw [get_paginated_ids_pos _ _ _ hl]
    exact List.length_take_le _ _
  · intro hl hge
    rw [get_paginated_ids_nonpos _ _ _ hl]
    rcases le_or_lt (all_ids.length : Int) (offset.toNat : Int) with h1 | h1
    · rw [if_pos h1]
    · rw [if_neg (not_le.mpr h1), if_pos hge]
  · intro hl hlt
    rw [get_paginated_ids_nonpos _ _ _ hl]
    rcases le_or_lt (all_ids.length : Int) (offset.toNat : Int) with h1 | h1
    · rw [if_pos h1, eq_comm, List.drop_eq_nil_of_le (by omega), List.take_nil]
    · rw [if_neg (not_le.mpr h1), if_neg (not_le.mpr hlt)]

/-- Witness for C10's amended theorem at offset 0, limit −1 over three ids
(the wraparound case), together with the evaluated result. -/
theorem C10_amended_totality_witness :
    ((get_paginated_ids ["a", "b", "c"] 0 (-1)).length ≤
        (["a", "b", "c"] : List String).length - (0 : Int).toNat
    ∧ (0 < (-1 : Int) → (get_paginated_ids ["a", "b", "c"] 0 (-1)).length ≤ (-1 : Int).toNat)
    ∧ ((-1 : Int) ≤ 0 → 0 ≤ (((0 : Int).toNat : Int)) + (-1) →
        get_paginated_ids ["a", "b", "c"] 0 (-1) = [])
    ∧ ((-1 : Int) ≤ 0 → (((0 : Int).toNat : Int)) + (-1) < 0 →
        get_paginated_ids ["a", "b", "c"] 0 (-1) =
          ((["a", "b", "c"] : List String).drop (0 : Int).toNat).take
            (((["a", "b", "c"] : List String).length : Int) + (-1)).toNat))
    ∧ ((["a", "b", "c"] : List String).drop (0 : Int).toNat).take
        (((["a", "b", "c"] : List String).length : Int) + (-1)).toNat = ["a", "b"] :=
  ⟨C10_amended_totality ["a", "b", "c"] 0 (-1), by decide⟩

/-! ### Min-max scaling lemmas -/

lemma foldl_min_le_init (l : List ℚ) (a : ℚ) : l.foldl min a ≤ a := by
  induction l generalizing a with
  | nil => exact le_rfl
  | cons b t ih =>
    simp only [List.foldl_cons]
    exact le_trans (ih _) (min_le_left a b)

lemma foldl_min_le_mem (l : List ℚ) (a v : ℚ) (hv : v ∈ l) : l.foldl min a ≤ v := by
  induction l generalizing a with
  | nil => cases hv
  | cons b t ih =>
    simp only [List.foldl_cons]
    rcases List.mem_cons.mp hv with h | h
    · subst h
      exact le_trans (foldl_min_le_init _ _) (min_le_right a v)
    · exact ih _ h

lemma foldl_min_eq_or_mem (l : List ℚ) (a : ℚ) : l.foldl min a = a ∨ l.foldl min a ∈ l := by
  induction l generalizing a with
  | nil => exact Or.inl rfl
  | cons b t ih =>
    simp only [List.foldl_cons]
    rcases ih (min a b) with h | h
    · rcases min_cases a b with ⟨hm, _⟩ | ⟨hm, _⟩
      · exact Or.inl (h.trans hm)
      · exact Or.inr (by rw [h, hm]; exact List.mem_cons_self b t)
    · exact Or.inr (List.mem_cons_of_mem b h)

lemma init_le_foldl_max (l : List ℚ) (a : ℚ) : a ≤ l.foldl max a := by
  induction l generalizing a with
  | nil => exact le_rfl
  | cons b t ih =>
    simp only [List.foldl_cons]
    exact le_trans (le_max_left a b) (ih _)

lemma mem_le_foldl_max (l : List ℚ) (a v : ℚ) (hv : v ∈ l) : v ≤ l.foldl max a := by
  induction l generalizing a with
  | nil => cases hv
  | cons b t ih =>
    simp only [List.foldl_cons]
    rcases List.mem_cons.mp hv with h | h
    · subst h
      exact le_trans (le_max_right a v) (init_le_foldl_max _ _)
    · exact ih _ h

lemma foldl_max_eq_or_mem (l : List ℚ) (a : ℚ) : l.foldl max a = a ∨ l.foldl max a ∈ l := by
  induction l generalizing a with
  | nil => exact Or.inl rfl
  | cons b t ih =>
    simp only [List.foldl_cons]
    rcases ih (max a b) with h | h
    · rcases max_cases a b with ⟨hm, _⟩ | ⟨hm, _⟩
      · exact Or.inl (h.trans hm)
      · exact Or.inr (by rw [h, hm]; exact List.mem_cons_self b t)
    · exact Or.inr (List.mem_cons_of_mem b h)

lemma listMin_le (vals : List ℚ) (v : ℚ) (hv : v ∈ vals) : listMin vals ≤ v :=
  foldl_min_le_mem _ _ _ hv

lemma le_listMax (vals : List ℚ) (v : ℚ) (hv : v ∈ vals) : v ≤ listMax vals :=
  mem_le_foldl_max _ _ _ hv

lemma listMin_mem (vals : List ℚ) (h : vals ≠ []) : listMin vals ∈ vals := by
  rcases foldl_min_eq_or_mem vals (vals.headD 0) with he | hm
  · rw [listMin, he]
    cases vals with
    | nil => exact absurd rfl h
    | cons a t => exact List.mem_cons_self a t
  · exact hm

lemma listMax_mem (vals : List ℚ) (h : vals ≠ []) : listMax vals ∈ vals := by
  rcases foldl_max_eq_or_mem vals (vals.headD 0) with he | hm
  · rw [listMax, he]
    cases vals with
    | nil => exact absurd rfl h
    | cons a t => exact List.mem_cons_self a t
  · exact hm

/-- In a `(· ≤ ·)`-pairwise (sorted) list, every member is at most the last
element. -/
lemma mem_le_of_getLast? (l : List ℚ) (hp : List.Pairwise (· ≤ ·) l) (v : ℚ)
    (hv : v ∈ l) (b : ℚ) (hb : l.getLast? = some b) : v ≤ b := by
  induction l with
  | nil => cases hv
  | cons a t ih =>
    cases t with
    | nil =>
      simp only [List.mem_singleton] at hv
      simp only [List.getLast?_singleton, Option.some.injEq] at hb
      rw [hv, hb]
    | cons c u =>
      rw [List.getLast?_cons_cons] at hb
      rcases List.mem_cons.mp hv with h | h
      · subst h
        exact (List.pairwise_cons.mp hp).1 b (List.mem_of_mem_getLast? hb)
      · exact ih (List.pairwise_cons.mp hp).2 h hb

/-- **C6** (confirmed).  Min-max scaling of a feature column: a constant
column is mapped to the constant `0.5`; every column with distinct minimum
and maximum — sorted or not — is mapped through `(v - min) / (max - min)`,
so 0 and 1 are attained (at a minimum and a maximum entry) and every entry
lands in `[0, 1]`; and for a strictly increasing column (at least two
entries) the first entry becomes exactly 0 and the last exactly 1. -/
theorem C6_minmax_scale_spec (vals : List ℚ) (c : ℚ) :
    ((∀ v ∈ vals, v = c) → minmax_scale_col vals = vals.map (fun _ => (1 : ℚ) / 2))
    ∧ (listMax vals ≠ listMin vals →
        minmax_scale_col vals =
          vals.map (fun v => (v - listMin vals) / (listMax vals - listMin vals))
        ∧ (0 : ℚ) ∈ minmax_scale_col vals
        ∧ (1 : ℚ) ∈ minmax_scale_col vals
        ∧ ∀ y ∈ minmax_scale_col vals, 0 ≤ y ∧ y ≤ 1)
    ∧ (List.Chain' (· < ·) vals → 2 ≤ vals.length →
        (minmax_scale_col vals).head? = some 0
        ∧ (minmax_scale_col vals).getLast? = some 1) := by
  refine ⟨?_, ?_, ?_⟩
  · intro hc
    have heq : listMax vals = listMin vals := by
      cases vals with
      | nil => rfl
      | cons a t =>
        rw [hc (listMax (a :: t)) (listMax_mem _ (by simp)),
            hc (listMin (a :: t)) (listMin_mem _ (by simp))]
    rw [minmax_scale_col, if_neg (fun h => h heq)]
  · intro hne
    have hnil : vals ≠ [] := by
      intro h0
      rw [h0] at hne
      exact hne rfl
    have hminmem := listMin_mem vals hnil
    have hmaxmem := listMax_mem vals hnil
    have hlt : listMin vals < listMax vals :=
      lt_of_le_of_ne (listMin_le _ _ hmaxmem) (fun h => hne h.symm)
    have hD : (0 : ℚ) < listMax vals - listMin vals := by linarith
    have hform : minmax_scale_col vals =
        vals.map (fun v => (v - listMin vals) / (listMax vals - listMin vals)) := by
      rw [minmax_scale_col, if_pos hne]
    refine ⟨hform, ?_, ?_, ?_⟩
    · rw [hform]
      exact List.mem_map.mpr ⟨listMin vals, hminmem, by rw [sub_self, zero_div]⟩
    · rw [hform]
      exact List.mem_map.mpr ⟨listMax vals, hmaxmem, div_self (ne_of_gt hD)⟩
    · intro y hy
      rw [hform, List.mem_map] at hy
      obtain ⟨v, hv, rfl⟩ := hy
      constructor
      · exact div_nonneg (by linarith [listMin_le _ v hv]) (le_of_lt hD)
      · rw [div_le_one hD]
        have := le_listMax _ v hv
        linarith
  · intro hchain hlen
    match vals, hlen with
    | a :: b :: t, _ =>
    have hne : (a :: b :: t) ≠ [] := by simp
    have hpair : List.Pairwise (· < ·) (a :: b :: t) := List.chain'_iff_pairwise.mp hchain
    have hpair' : List.Pairwise (· ≤ ·) (a :: b :: t) := hpair.imp le_of_lt
    have hmin : listMin (a :: b :: t) = a := by
      have h1 := listMin_mem (a :: b :: t) hne
      have h2 := listMin_le (a :: b :: t) a (List.mem_cons_self _ _)
      rcases List.mem_cons.mp h1 with h | h
      · exact h
      · exact absurd h2 (not_le.mpr ((List.pairwise_cons.mp hpair).1 _ h))
    obtain ⟨L, hL⟩ : ∃ L, (a :: b :: t).getLast? = some L :=
      ⟨(a :: b :: t).getLast hne, List.getLast?_eq_getLast _ hne⟩
    have hmax : listMax (a :: b :: t) = L := by
      have h1 := listMax_mem (a :: b :: t) hne
      have h2 : listMax (a :: b :: t) ≤ L := mem_le_of_getLast? _ hpair' _ h1 _ hL
      have h3 : L ≤ listMax (a :: b :: t) :=
        le_listMax _ _ (List.mem_of_mem_getLast? hL)
      exact le_antisymm h2 h3
    have hab : a < b := (List.chain'_cons.mp hchain).1
    have hbL : b ≤ L := mem_le_of_getLast? _ hpair' b (by simp) _ hL
    have hlt : listMin (a :: b :: t) < listMax (a :: b :: t) := by
      rw [hmin, hmax]
      exact lt_of_lt_of_le hab hbL
    have hD : (0 : ℚ) < listMax (a :: b :: t) - listMin (a :: b :: t) := by linarith
    have hform : minmax_scale_col (a :: b :: t) =
        (a :: b :: t).map (fun v =>
          (v - listMin (a :: b :: t)) / (listMax (a :: b :: t) - listMin (a :: b :: t))) := by
      rw [minmax_scale_col, if_pos (ne_of_gt hlt)]
    constructor
    · rw [hform]
      simp only [List.map_cons, List.head?_cons, Option.some.injEq]
      rw [hmin, sub_self, zero_div]
    · rw [hform, List.getLast?_map, hL]
      simp only [Option.map_some', Option.some.injEq]
      rw [← hmax, div_self (ne_of_gt hD)]

/-- Witness for C6: the constant column `[3, 3, 3]` scales to `[1/2, 1/2,
1/2]`; the unsorted column `[3, 1, 2]` (distinct min 1 and max 3) scales
through the `(v - min) / (max - min)` formula to `[1, 0, 1/2]`; and the
strictly increasing column `[1, 2, 4]` scales to `[0, 1/3, 1]`: first entry
0, last entry 1. -/
theorem C6_minmax_scale_spec_witness :
    minmax_scale_col [(3 : ℚ), 3, 3] = ([(3 : ℚ), 3, 3]).map (fun _ => (1 : ℚ) / 2)
    ∧ (minmax_scale_col [(3 : ℚ), 1, 2] =
        ([(3 : ℚ), 1, 2]).map (fun v =>
          (v - listMin [(3 : ℚ), 1, 2]) / (listMax [(3 : ℚ), 1, 2] - listMin [(3 : ℚ), 1, 2]))
      ∧ (0 : ℚ) ∈ minmax_scale_col [(3 : ℚ), 1, 2]
      ∧ (1 : ℚ) ∈ minmax_scale_col [(3 : ℚ), 1, 2]
      ∧ ∀ y ∈ minmax_scale_col [(3 : ℚ), 1, 2], 0 ≤ y ∧ y ≤ 1)
    ∧ ((minmax_scale_col [(1 : ℚ), 2, 4]).head? = some 0
      ∧ (minmax_scale_col [(1 : ℚ), 2, 4]).getLast? = some 1)
    ∧ minmax_scale_col [(3 : ℚ), 1, 2] = [1, 0, 1/2]
    ∧ minmax_scale_col [(1 : ℚ), 2, 4] = [0, 1/3, 1] :=
  ⟨(C6_minmax_scale_spec [(3 : ℚ), 3, 3] 3).1 (by intro v hv; fin_cases hv <;> rfl),
   (C6_minmax_scale_spec [(3 : ℚ), 1, 2] 0).2.1
     (by norm_num [listMin, listMax, min_def, max_def]),
   (C6_minmax_scale_spec [(1 : ℚ), 2, 4] 0).2.2
     (by norm_num [List.chain'_cons, List.chain'_singleton]) (by norm_num),
   by norm_num [minmax_scale_col, listMin, listMax, min_def, max_def],
   by norm_num [minmax_scale_col, listMin, listMax, min_def, max_def]⟩

/-! ### Exception aggregation lemmas -/

lemma agg_keys (rows : List ExRow) (s e : Option Int) :
    (get_aggregated_exceptions rows s e).map Prod.fst
      = ((filter_time rows s e).map (fun r => r.ts_id)).dedup := by
  simp only [get_aggregated_exceptions, List.map_map]
  have hcomp : (Prod.fst ∘ fun tid => (tid, exception_sum (filter_time rows s e) tid))
      = fun tid : String => tid := rfl
  rw [hcomp]
  exact List.map_id' _

lemma filter_time_sublist (rows : List ExRow) (s e : Option Int) :
    List.Sublist (filter_time rows s e) rows := by
  unfold filter_time
  cases s with
  | none =>
    cases e with
    | none => exact List.Sublist.refl _
    | some ev => exact List.filter_sublist _
  | some sv =>
    cases e with
    | none => exact List.filter_sublist _
    | some ev => exact (List.filter_sublist _).trans (List.filter_sublist _)

lemma exception_sum_mono (rows₁ rows₂ : List ExRow) (h : List.Sublist rows₁ rows₂)
    (hpos : ∀ r ∈ rows₂, 0 ≤ r.exception_count) (tid : String) :
    exception_sum rows₁ tid ≤ exception_sum rows₂ tid := by
  unfold exception_sum
  apply List.Sublist.sum_le_sum
  · exact (h.filter _).map _
  · intro a ha
    rw [List.mem_map] at ha
    obtain ⟨r, hr, rfl⟩ := ha
    exact hpos r (List.mem_of_mem_filter hr)

/-- **C7 counterexample.**  As stated ("for every exception table ... a
sub-window sum is ≤ the unbounded sum"), the claim fails when a count cell is
negative: with rows `("a", t=0, count=-5)` and `("a", t=10, count=3)`, the
window `[5, 15]` sums to 3 for series `"a"` while the unbounded aggregation
sums to −2, and 3 ≤ −2 is false. -/
theorem C7_counterexample :
    get_aggregated_exceptions [⟨"a", 0, -5⟩, ⟨"a", 10, 3⟩] (some 5) (some 15) = [("a", 3)]
    ∧ get_aggregated_exceptions [⟨"a", 0, -5⟩, ⟨"a", 10, 3⟩] none none = [("a", -2)]
    ∧ ¬ ((3 : Int) ≤ -2) := by
  refine ⟨by rfl, by rfl, by decide⟩

/-- **C7 amended.**  The exception aggregation filters rows to the closed
interval (unbounded on an omitted side), groups by series id and sums the
count column: its key list is duplicate-free, a series id appears iff it has
at least one row in the filtered window (a series with zero matching rows is
absent, not present with sum 0), every emitted sum is the sum of the
series' filtered rows (with no bounds, of all its rows), and — provided
every count cell is nonnegative, which the claim's "exception counts"
presuppose — a sub-window sum never exceeds the unbounded sum. -/
theorem C7_aggregation_spec (rows : List ExRow) (s e : Option Int)
    (tid : String) (v : Int) :
    ((get_aggregated_exceptions rows s e).map Prod.fst).Nodup
    ∧ (tid ∈ (get_aggregated_exceptions rows s e).map Prod.fst ↔
        tid ∈ (filter_time rows s e).map (fun r => r.ts_id))
    ∧ ((tid, v) ∈ get_aggregated_exceptions rows s e →
        v = exception_sum (filter_time rows s e) tid)
    ∧ ((tid, v) ∈ get_aggregated_exceptions rows none none →
        v = exception_sum rows tid)
    ∧ ((∀ r ∈ rows, 0 ≤ r.exception_count) →
        exception_sum (filter_time rows s e) tid ≤ exception_sum rows tid) := by
  refine ⟨?_, ?_, ?_, ?_, ?_⟩
  · rw [agg_keys]
    exact List.nodup_dedup _
  · rw [agg_keys, List.mem_dedup]
  · intro hmem
    unfold get_aggregated_exceptions at hmem
    rw [List.mem_map] at hmem
    obtain ⟨k, _, heq⟩ := hmem
    obtain ⟨hk, hv⟩ := Prod.mk.injEq .. ▸ heq
    rw [← hv, hk]
  · intro hmem
    unfold get_aggregated_exceptions at hmem
    rw [List.mem_map] at hmem
    obtain ⟨k, _, heq⟩ := hmem
    obtain ⟨hk, hv⟩ := Prod.mk.injEq .. ▸ heq
    rw [← hv, hk]
    rfl
  · intro hpos
    exact exception_sum_mono _ _ (filter_time_sublist rows s e) hpos tid

/-- Witness for C7's amended theorem on a three-row, two-series table with
nonnegative counts and the window `[0, 5]`, plus the evaluated aggregations. -/
theorem C7_aggregation_spec_witness :
    (((get_aggregated_exceptions [⟨"a", 0, 2⟩, ⟨"b", 1, 4⟩, ⟨"a", 10, 1⟩]
          (some 0) (some 5)).map Prod.fst).Nodup
    ∧ ("a" ∈ (get_aggregated_exceptions [⟨"a", 0, 2⟩, ⟨"b", 1, 4⟩, ⟨"a", 10, 1⟩]
          (some 0) (some 5)).map Prod.fst ↔
        "a" ∈ (filter_time [⟨"a", 0, 2⟩, ⟨"b", 1, 4⟩, ⟨"a", 10, 1⟩]
          (some 0) (some 5)).map (fun r => r.ts_id))
    ∧ (("a", (2 : Int)) ∈ get_aggregated_exceptions
          [⟨"a", 0, 2⟩, ⟨"b", 1, 4⟩, ⟨"a", 10, 1⟩] (some 0) (some 5) →
        (2 : Int) = exception_sum (filter_time [⟨"a", 0, 2⟩, ⟨"b", 1, 4⟩, ⟨"a", 10, 1⟩]
          (some 0) (some 5)) "a")
    ∧ (("a", (2 : Int)) ∈ get_aggregated_exceptions
          [⟨"a", 0, 2⟩, ⟨"b", 1, 4⟩, ⟨"a", 10, 1⟩] none none →
        (2 : Int) = exception_sum [⟨"a", 0, 2⟩, ⟨"b", 1, 4⟩, ⟨"a", 10, 1⟩] "a")
    ∧ ((∀ r ∈ ([⟨"a", 0, 2⟩, ⟨"b", 1, 4⟩, ⟨"a", 10, 1⟩] : List ExRow), 0 ≤ r.exception_count) →
        exception_sum (filter_time [⟨"a", 0, 2⟩, ⟨"b", 1, 4⟩, ⟨"a", 10, 1⟩]
          (some 0) (some 5)) "a" ≤
          exception_sum [⟨"a", 0, 2⟩, ⟨"b", 1, 4⟩, ⟨"a", 10, 1⟩] "a"))
    ∧ get_aggregated_exceptions [⟨"a", 0, 2⟩, ⟨"b", 1, 4⟩, ⟨"a", 10, 1⟩]
        (some 0) (some 5) = [("a", 2), ("b", 4)]
    ∧ get_aggregated_exceptions [⟨"a", 0, 2⟩, ⟨"b", 1, 4⟩, ⟨"a", 10, 1⟩]
        none none = [("b", 4), ("a", 3)] :=
  ⟨C7_aggregation_spec [⟨"a", 0, 2⟩, ⟨"b", 1, 4⟩, ⟨"a", 10, 1⟩] (some 0) (some 5) "a" 2,
   by rfl, by rfl⟩

/-- **C8** (confirmed).  Empty-result conditions are not errors:
`get_ts_data` on an empty id list returns a zero-row frame with the source
schema intact, and the chart builder on an empty row-set returns the
placeholder figure with the no-data title and zero traces, for every
configuration (extrema and features included). -/
theorem C8_empty_inputs (f : Frame) (cfg : ColumnConfig) :
    (get_ts_data f []).rows = []
    ∧ (get_ts_data f []).schema = f.schema
    ∧ create_figure [] cfg = { title := "No data selected", traces := [] }
    ∧ (create_figure (get_ts_data f []).rows cfg).traces = [] :=
  ⟨rfl, rfl, rfl, rfl⟩

/-! ### Trace counting lemmas -/

lemma series_traces_length (df : List Row) (cfg : ColumnConfig) (tid : String) :
    (series_traces df cfg tid).length =
      2 + (if cfg.hasExtrema && has_extrema_data df tid then 1 else 0) := by
  have hlen : ((List.insertionSort (fun r s => r.timestamp ≤ s.timestamp)
        (df.filter (fun r => r.ts_id == tid))).filter (fun r => r.extrema.isSome)).length
      = ((df.filter (fun r => r.ts_id == tid)).filter (fun r => r.extrema.isSome)).length :=
    ((List.perm_insertionSort _ _).filter _).length_eq
  unfold series_traces has_extrema_data
  cases hEx : cfg.hasExtrema with
  | false => simp
  | true =>
    simp only [if_true, Bool.true_and]
    rw [List.length_append]
    by_cases hpos :
        0 < ((df.filter (fun r => r.ts_id == tid)).filter (fun r => r.extrema.isSome)).length
    · rw [if_pos (by omega : 0 < _), if_pos (by simpa using hpos)]
      rfl
    · rw [if_neg (by omega : ¬ 0 < _), if_neg (by simpa using hpos)]
      rfl

lemma traces_flatten_length (df : List Row) (cfg : ColumnConfig) (l : List String) :
    ((l.map (series_traces df cfg)).flatten).length =
      2 * l.length + l.countP (fun tid => cfg.hasExtrema && has_extrema_data df tid) := by
  induction l with
  | nil => rfl
  | cons a t ih =>
    simp only [List.map_cons, List.flatten_cons, List.length_append, ih,
      series_traces_length, List.countP_cons, List.length_cons]
    by_cases h : (cfg.hasExtrema && has_extrema_data df a) = true
    · simp only [h, if_true]
      omega
    · simp only [h, if_false]
      omega

lemma feature_traces_length (df : List Row) (cfg : ColumnConfig) :
    (feature_traces df cfg).length = cfg.features.length := by
  unfold feature_traces
  rw [List.length_map, List.enum_length]

lemma feature_traces_visible (df : List Row) (cfg : ColumnConfig) :
    (feature_traces df cfg).map (fun tr => tr.visible) =
      (List.range cfg.features.length).map (fun i => decide (i < 5)) := by
  unfold feature_traces
  rw [List.map_map]
  rw [show ((fun tr : Trace => tr.visible) ∘ (fun p : Nat × String =>
      ({ kind := TraceKind.featureLine
         name := p.2
         visible := decide (p.1 < 5)
         pts := (List.insertionSort (· ≤ ·) ((df.map (fun r => r.timestamp)).dedup)).map
           (fun t => (t, feature_mean_at df p.2 t)) } : Trace)))
      = (fun i => decide (i < 5)) ∘ Prod.fst from rfl]
  rw [← List.map_map, List.enum_map_fst]

lemma create_figure_ne_nil (df : List Row) (cfg : ColumnConfig) (h : df ≠ []) :
    create_figure df cfg =
      { title := "Timeseries Visualization"
        traces :=
          ((unique_sorted (df.map (fun r => r.ts_id))).map (series_traces df cfg)).flatten
            ++ feature_traces df cfg } := by
  unfold create_figure
  rw [if_neg (by simp [List.isEmpty_iff]; exact h)]

/-- **C5** (confirmed).  Over a non-empty row-set with `K` distinct series
ids (`K` = the length of the sorted distinct id list): with neither extrema
nor features configured the chart has exactly `2K` traces; configuring
extrema adds one marker trace per series with at least one non-null extrema
value and none for an all-null series, giving `2K + E` traces where `E`
counts such series; configuring `F` feature columns adds exactly `F` traces
regardless of `K` (the whole trace list is the featureless trace list
followed by the feature traces), and of the feature traces exactly the first
5 are visible — the rest are legend-only. -/
theorem C5_trace_counts (df : List Row) (hasEx : Bool) (feats : List String)
    (hne : df ≠ []) :
    (create_figure df ⟨false, []⟩).traces.length =
        2 * (unique_sorted (df.map (fun r => r.ts_id))).length
    ∧ (create_figure df ⟨true, []⟩).traces.length =
        2 * (unique_sorted (df.map (fun r => r.ts_id))).length
          + (unique_sorted (df.map (fun r => r.ts_id))).countP
              (fun tid => has_extrema_data df tid)
    ∧ (create_figure df ⟨hasEx, feats⟩).traces.length =
        2 * (unique_sorted (df.map (fun r => r.ts_id))).length
          + (if hasEx then (unique_sorted (df.map (fun r => r.ts_id))).countP
              (fun tid => has_extrema_data df tid) else 0)
          + feats.length
    ∧ (create_figure df ⟨hasEx, feats⟩).traces =
        (create_figure df ⟨hasEx, []⟩).traces ++ feature_traces df ⟨hasEx, feats⟩
    ∧ (feature_traces df ⟨hasEx, feats⟩).map (fun tr => tr.visible) =
        (List.range feats.length).map (fun i => decide (i < 5)) := by
  have hbase : ∀ ex : Bool, (create_figure df ⟨ex, []⟩).traces.length =
      2 * (unique_sorted (df.map (fun r => r.ts_id))).length
        + (unique_sorted (df.map (fun r => r.ts_id))).countP
            (fun tid => ex && has_extrema_data df tid) := by
    intro ex
    rw [create_figure_ne_nil _ _ hne]
    show (((unique_sorted (df.map (fun r => r.ts_id))).map
        (series_traces df ⟨ex, []⟩)).flatten ++ feature_traces df ⟨ex, []⟩).length = _
    rw [show feature_traces df ⟨ex, []⟩ = [] from rfl, List.append_nil,
      traces_flatten_length]
  refine ⟨?_, ?_, ?_, ?_, ?_⟩
  · rw [hbase false]
    simp [List.countP_eq_length_filter]
  · rw [hbase true]
    simp only [Bool.true_and]
  · rw [create_figure_ne_nil _ _ hne]
    show (((unique_sorted (df.map (fun r => r.ts_id))).map
        (series_traces df ⟨hasEx, feats⟩)).flatten ++ feature_traces df ⟨hasEx, feats⟩).length = _
    rw [List.length_append, traces_flatten_length, feature_traces_length]
    cases hasEx with
    | false => simp
    | true => simp only [Bool.true_and, if_true]
  · rw [create_figure_ne_nil _ _ hne, create_figure_ne_nil _ _ hne]
    show ((unique_sorted (df.map (fun r => r.ts_id))).map
        (series_traces df ⟨hasEx, feats⟩)).flatten ++ feature_traces df ⟨hasEx, feats⟩ =
      (((unique_sorted (df.map (fun r => r.ts_id))).map
        (series_traces df ⟨hasEx, []⟩)).flatten ++ feature_traces df ⟨hasEx, []⟩)
        ++ feature_traces df ⟨hasEx, feats⟩
    rw [show series_traces df ⟨hasEx, feats⟩ = series_traces df ⟨hasEx, []⟩ from rfl,
      show feature_traces df ⟨hasEx, []⟩ = [] from rfl, List.append_nil]
  · exact feature_traces_visible df ⟨hasEx, feats⟩

/-- Witness for C5 on three rows over two series (series `"a"` carrying one
non-null extrema value, series `"b"` none) with two feature columns:
the counts evaluate to `2·2 = 4`, `4 + 1 = 5` and `5 + 2 = 7`, and both
feature traces are visible. -/
theorem C5_trace_counts_witness :
    ((create_figure [⟨"a", 0, 1, 2, some 5, fun _ => 0⟩, ⟨"a", 1, 2, 3, none, fun _ => 0⟩,
          ⟨"b", 0, 3, 4, none, fun _ => 0⟩] ⟨false, []⟩).traces.length =
        2 * (unique_sorted (([⟨"a", 0, 1, 2, some 5, fun _ => 0⟩,
          ⟨"a", 1, 2, 3, none, fun _ => 0⟩,
          ⟨"b", 0, 3, 4, none, fun _ => 0⟩] : List Row).map (fun r => r.ts_id))).length
    ∧ (create_figure [⟨"a", 0, 1, 2, some 5, fun _ => 0⟩, ⟨"a", 1, 2, 3, none, fun _ => 0⟩,
          ⟨"b", 0, 3, 4, none, fun _ => 0⟩] ⟨true, []⟩).traces.length =
        2 * (unique_sorted (([⟨"a", 0, 1, 2, some 5, fun _ => 0⟩,
          ⟨"a", 1, 2, 3, none, fun _ => 0⟩,
          ⟨"b", 0, 3, 4, none, fun _ => 0⟩] : List Row).map (fun r => r.ts_id))).length
          + (unique_sorted (([⟨"a", 0, 1, 2, some 5, fun _ => 0⟩,
              ⟨"a", 1, 2, 3, none, fun _ => 0⟩,
              ⟨"b", 0, 3, 4, none, fun _ => 0⟩] : List Row).map (fun r => r.ts_id))).countP
              (fun tid => has_extrema_data [⟨"a", 0, 1, 2, some 5, fun _ => 0⟩,
                ⟨"a", 1, 2, 3, none, fun _ => 0⟩, ⟨"b", 0, 3, 4, none, fun _ => 0⟩] tid)
    ∧ (create_figure [⟨"a", 0, 1, 2, some 5, fun _ => 0⟩, ⟨"a", 1, 2, 3, none, fun _ => 0⟩,
          ⟨"b", 0, 3, 4, none, fun _ => 0⟩] ⟨true, ["f1", "f2"]⟩).traces.length =
        2 * (unique_sorted (([⟨"a", 0, 1, 2, some 5, fun _ => 0⟩,
          ⟨"a", 1, 2, 3, none, fun _ => 0⟩,
          ⟨"b", 0, 3, 4, none, fun _ => 0⟩] : List Row).map (fun r => r.ts_id))).length
          + (if true then (unique_sorted (([⟨"a", 0, 1, 2, some 5, fun _ => 0⟩,
              ⟨"a", 1, 2, 3, none, fun _ => 0⟩,
              ⟨"b", 0, 3, 4, none, fun _ => 0⟩] : List Row).map (fun r => r.ts_id))).countP
              (fun tid => has_extrema_data [⟨"a", 0, 1, 2, some 5, fun _ => 0⟩,
                ⟨"a", 1, 2, 3, none, fun _ => 0⟩, ⟨"b", 0, 3, 4, none, fun _ => 0⟩] tid)
             else 0)
          + (["f1", "f2"] : List String).length
    ∧ (create_figure [⟨"a", 0, 1, 2, some 5, fun _ => 0⟩, ⟨"a", 1, 2, 3, none, fun _ => 0⟩,
          ⟨"b", 0, 3, 4, none, fun _ => 0⟩] ⟨true, ["f1", "f2"]⟩).traces =
        (create_figure [⟨"a", 0, 1, 2, some 5, fun _ => 0⟩, ⟨"a", 1, 2, 3, none, fun _ => 0⟩,
          ⟨"b", 0, 3, 4, none, fun _ => 0⟩] ⟨true, []⟩).traces
          ++ feature_traces [⟨"a", 0, 1, 2, some 5, fun _ => 0⟩,
              ⟨"a", 1, 2, 3, none, fun _ => 0⟩,
              ⟨"b", 0, 3, 4, none, fun _ => 0⟩] ⟨true, ["f1", "f2"]⟩
    ∧ (feature_traces [⟨"a", 0, 1, 2, some 5, fun _ => 0⟩, ⟨"a", 1, 2, 3, none, fun _ => 0⟩,
          ⟨"b", 0, 3, 4, none, fun _ => 0⟩] ⟨true, ["f1", "f2"]⟩).map (fun tr => tr.visible) =
        (List.range (["f1", "f2"] : List String).length).map (fun i => decide (i < 5)))
    ∧ (create_figure [⟨"a", 0, 1, 2, some 5, fun _ => 0⟩, ⟨"a", 1, 2, 3, none, fun _ => 0⟩,
          ⟨"b", 0, 3, 4, none, fun _ => 0⟩] ⟨true, ["f1", "f2"]⟩).traces.length = 7 :=
  ⟨C5_trace_counts _ true ["f1", "f2"] (by simp), by decide⟩

/-! ### Time-parser lemmas -/

lemma isDig_bounds (c : Char) (h : isDig c = true) : 48 ≤ c.toNat ∧ c.toNat ≤ 57 :=
  of_decide_eq_true h

lemma isDig_not_space (c : Char) (h : isDig c = true) : isPySpace c = false := by
  have hb := isDig_bounds c h
  unfold isPySpace
  exact decide_eq_false (by omega)

lemma parseYear4_digits (y1 y2 y3 y4 : Char)
    (h1 : isDig y1 = true) (h2 : isDig y2 = true) (h3 : isDig y3 = true)
    (h4 : isDig y4 = true) (rest : List Char) :
    parseYear4 (y1 :: y2 :: y3 :: y4 :: rest) =
      some (1000 * dv y1 + 100 * dv y2 + 10 * dv y3 + dv y4, rest) := by
  simp only [parseYear4]
  rw [if_pos ⟨h1, h2, h3, h4⟩]

lemma parseMonth_two (c1 c2 : Char) (h1 : isDig c1 = true) (h2 : isDig c2 = true)
    (hv1 : 1 ≤ 10 * dv c1 + dv c2) (hv2 : 10 * dv c1 + dv c2 ≤ 12) (rest : List Char) :
    parseMonth (c1 :: c2 :: rest) = some (10 * dv c1 + dv c2, rest) := by
  have hb1 := isDig_bounds c1 h1
  have hb2 := isDig_bounds c2 h2
  have hd1 : dv c1 = c1.toNat - 48 := rfl
  have hd2 : dv c2 = c2.toNat - 48 := rfl
  simp only [parseMonth]
  rw [if_pos ⟨h1, h2, by omega⟩]

lemma parseDay_two (c1 c2 : Char) (h1 : isDig c1 = true) (h2 : isDig c2 = true)
    (hv1 : 1 ≤ 10 * dv c1 + dv c2) (hv2 : 10 * dv c1 + dv c2 ≤ 31) (rest : List Char) :
    parseDay (c1 :: c2 :: rest) = some (10 * dv c1 + dv c2, rest) := by
  have hb1 := isDig_bounds c1 h1
  have hb2 := isDig_bounds c2 h2
  have hd1 : dv c1 = c1.toNat - 48 := rfl
  have hd2 : dv c2 = c2.toNat - 48 := rfl
  simp only [parseDay]
  rw [if_pos ⟨h1, h2, by omega⟩]

lemma parseHour_two (c1 c2 : Char) (h1 : isDig c1 = true) (h2 : isDig c2 = true)
    (hv : 10 * dv c1 + dv c2 ≤ 23) (rest : List Char) :
    parseHour (c1 :: c2 :: rest) = some (10 * dv c1 + dv c2, rest) := by
  have hb1 := isDig_bounds c1 h1
  have hb2 := isDig_bounds c2 h2
  have hd1 : dv c1 = c1.toNat - 48 := rfl
  have hd2 : dv c2 = c2.toNat - 48 := rfl
  simp only [parseHour]
  rw [if_pos ⟨h1, h2, by omega⟩]

lemma parseMinSec_two (c1 c2 : Char) (h1 : isDig c1 = true) (h2 : isDig c2 = true)
    (hv : 10 * dv c1 + dv c2 ≤ 59) (rest : List Char) :
    parseMinSec (c1 :: c2 :: rest) = some (10 * dv c1 + dv c2, rest) := by
  have hb1 := isDig_bounds c1 h1
  have hb2 := isDig_bounds c2 h2
  have hd1 : dv c1 = c1.toNat - 48 := rfl
  have hd2 : dv c2 = c2.toNat - 48 := rfl
  simp only [parseMinSec]
  rw [if_pos ⟨h1, h2, by omega⟩]

lemma expectChar_self (ch : Char) (rest : List Char) :
    expectChar ch (ch :: rest) = some rest := by
  simp [expectChar]

lemma parseSpaces1_one (c : Char) (hc : isPySpace c = true) (rest : List Char)
    (hrest : ∀ d, rest.head? = some d → isPySpace d = false) :
    parseSpaces1 (c :: rest) = some rest := by
  simp only [parseSpaces1]
  rw [if_pos hc]
  congr 1
  cases rest with
  | nil => rfl
  | cons d t =>
    rw [List.dropWhile_cons, if_neg (by rw [hrest d rfl]; exact Bool.false_ne_true)]

lemma pyStripList_eq_self (l : List Char)
    (h1 : ∀ c, l.head? = some c → isPySpace c = false)
    (h2 : ∀ c, l.getLast? = some c → isPySpace c = false) :
    pyStripList l = l := by
  unfold pyStripList
  have hd : l.dropWhile isPySpace = l := by
    cases l with
    | nil => rfl
    | cons a t =>
      rw [List.dropWhile_cons, if_neg (by rw [h1 a rfl]; exact Bool.false_ne_true)]
  rw [hd]
  have hr : l.reverse.dropWhile isPySpace = l.reverse := by
    cases hrev : l.reverse with
    | nil => rfl
    | cons a t =>
      have hla : l.getLast? = some a := by
        rw [← List.head?_reverse, hrev]
        rfl
      rw [List.dropWhile_cons,
        if_neg (by rw [h2 a hla]; exact Bool.false_ne_true)]
  rw [hr, List.reverse_reverse]

lemma pyStripList_all_space (l : List Char) (h : ∀ c ∈ l, isPySpace c = true) :
    pyStripList l = [] := by
  unfold pyStripList
  have hd : l.dropWhile isPySpace = [] := by
    induction l with
    | nil => rfl
    | cons a t ih =>
      rw [List.dropWhile_cons, if_pos (h a (List.mem_cons_self a t))]
      exact ih (fun c hc => h c (List.mem_cons_of_mem a hc))
  rw [hd]
  rfl

/-- A strict `YYYY-MM-DD` string parses under the date format, is rejected
by the full format, survives `strip` unchanged, and is non-empty. -/
lemma strictDate_facts (s : String) (h : strictDate s = true) :
    (strptimeDate s.data).isSome = true ∧ strptimeFull s.data = none ∧
    pyStrip s = s ∧ s ≠ "" := by
  obtain ⟨l⟩ := s
  rcases l with _ | ⟨y1, _ | ⟨y2, _ | ⟨y3, _ | ⟨y4, _ | ⟨c1, l5⟩⟩⟩⟩⟩
  · exact absurd h (by simp [strictDate])
  · exact absurd h (by simp [strictDate])
  · exact absurd h (by simp [strictDate])
  · exact absurd h (by simp [strictDate])
  · exact absurd h (by simp [strictDate])
  rcases l5 with _ | ⟨m1, _ | ⟨m2, _ | ⟨c2, _ | ⟨d1, _ | ⟨d2, tail⟩⟩⟩⟩⟩
  · exact absurd h (by simp [strictDate])
  · exact absurd h (by simp [strictDate])
  · exact absurd h (by simp [strictDate])
  · exact absurd h (by simp [strictDate])
  · exact absurd h (by simp [strictDate])
  rcases tail with _ | ⟨x, r⟩
  on_goal 2 => exact absurd h (by simp [strictDate])
  simp only [strictDate, Bool.and_eq_true, beq_iff_eq, decide_eq_true_eq,
    and_assoc] at h
  obtain ⟨h1, h2, h3, h4, h5, h6, h7, h8, hc1, hc2, hm1, hm2, hdr1, hdr2, hval⟩ := h
  subst hc1
  subst hc2
  have hdate : strptimeDate [y1, y2, y3, y4, '-', m1, m2, '-', d1, d2] =
      some (1000 * dv y1 + 100 * dv y2 + 10 * dv y3 + dv y4,
        10 * dv m1 + dv m2, 10 * dv d1 + dv d2) := by
    simp only [strptimeDate, parseYear4_digits y1 y2 y3 y4 h1 h2 h3 h4,
      expectChar_self, parseMonth_two m1 m2 h5 h6 hm1 hm2,
      parseDay_two d1 d2 h7 h8 hdr1 hdr2]
    rw [if_pos ⟨trivial, hval⟩]
  have hfull : strptimeFull [y1, y2, y3, y4, '-', m1, m2, '-', d1, d2] = none := by
    simp only [strptimeFull, parseYear4_digits y1 y2 y3 y4 h1 h2 h3 h4,
      expectChar_self, parseMonth_two m1 m2 h5 h6 hm1 hm2,
      parseDay_two d1 d2 h7 h8 hdr1 hdr2, parseSpaces1]
  have hstrip : pyStrip ⟨[y1, y2, y3, y4, '-', m1, m2, '-', d1, d2]⟩ =
      ⟨[y1, y2, y3, y4, '-', m1, m2, '-', d1, d2]⟩ := by
    show String.mk (pyStripList _) = String.mk _
    congr 1
    apply pyStripList_eq_self
    · intro c hc
      simp only [List.head?_cons, Option.some.injEq] at hc
      rw [← hc]
      exact isDig_not_space y1 h1
    · intro c hc
      rw [show ([y1, y2, y3, y4, '-', m1, m2, '-', d1, d2].getLast?) = some d2 from rfl,
        Option.some.injEq] at hc
      rw [← hc]
      exact isDig_not_space d2 h8
  refine ⟨?_, hfull, hstrip, ?_⟩
  · rw [show (String.mk [y1, y2, y3, y4, '-', m1, m2, '-', d1, d2]).data =
      [y1, y2, y3, y4, '-', m1, m2, '-', d1, d2] from rfl, hdate]
    rfl
  · intro heq
    exact List.cons_ne_nil _ _ (congrArg String.data heq)

/-- A strict `YYYY-MM-DD HH:MM:SS` string parses under the full format,
survives `strip` unchanged, and is non-empty. -/
lemma strictFull_facts (s : String) (h : strictFull s = true) :
    (strptimeFull s.data).isSome = true ∧ pyStrip s = s ∧ s ≠ "" := by
  obtain ⟨l⟩ := s
  rcases l with _ | ⟨y1, _ | ⟨y2, _ | ⟨y3, _ | ⟨y4, _ | ⟨c1, l5⟩⟩⟩⟩⟩
  · exact absurd h (by simp [strictFull])
  · exact absurd h (by simp [strictFull])
  · exact absurd h (by simp [strictFull])
  · exact absurd h (by simp [strictFull])
  · exact absurd h (by simp [strictFull])
  rcases l5 with _ | ⟨m1, _ | ⟨m2, _ | ⟨c2, _ | ⟨d1, _ | ⟨d2, l10⟩⟩⟩⟩⟩
  · exact absurd h (by simp [strictFull])
  · exact absurd h (by simp [strictFull])
  · exact absurd h (by simp [strictFull])
  · exact absurd h (by simp [strictFull])
  · exact absurd h (by simp [strictFull])
  rcases l10 with _ | ⟨sp, _ | ⟨h1, _ | ⟨h2, _ | ⟨c3, _ | ⟨i1, l15⟩⟩⟩⟩⟩
  · exact absurd h (by simp [strictFull])
  · exact absurd h (by simp [strictFull])
  · exact absurd h (by simp [strictFull])
  · exact absurd h (by simp [strictFull])
  · exact absurd h (by simp [strictFull])
  rcases l15 with _ | ⟨i2, _ | ⟨c4, _ | ⟨s1, _ | ⟨s2, tail⟩⟩⟩⟩
  · exact absurd h (by simp [strictFull])
  · exact absurd h (by simp [strictFull])
  · exact absurd h (by simp [strictFull])
  · exact absurd h (by simp [strictFull])
  rcases tail with _ | ⟨x, r⟩
  on_goal 2 => exact absurd h (by simp [strictFull])
  simp only [strictFull, Bool.and_eq_true, beq_iff_eq, decide_eq_true_eq,
    and_assoc] at h
  obtain ⟨hy1, hy2, hy3, hy4, hm1, hm2, hd1, hd2, hh1, hh2, hi1, hi2, hs1, hs2,
    hc1, hc2, hsp, hc3, hc4, hmr1, hmr2, hdr1, hdr2, hhr, hir, hsr, hval⟩ := h
  subst hc1
  subst hc2
  subst hsp
  subst hc3
  subst hc4
  have hfull : strptimeFull
      [y1, y2, y3, y4, '-', m1, m2, '-', d1, d2, ' ',
        h1, h2, ':', i1, i2, ':', s1, s2] =
      some (1000 * dv y1 + 100 * dv y2 + 10 * dv y3 + dv y4,
        10 * dv m1 + dv m2, 10 * dv d1 + dv d2, 10 * dv h1 + dv h2,
        10 * dv i1 + dv i2, 10 * dv s1 + dv s2) := by
    have hsp1 : parseSpaces1 (' ' :: h1 :: h2 :: ':' :: i1 :: i2 :: ':' :: s1 :: s2 :: []) =
        some (h1 :: h2 :: ':' :: i1 :: i2 :: ':' :: s1 :: s2 :: []) := by
      apply parseSpaces1_one _ (by decide)
      intro d hd
      simp only [List.head?_cons, Option.some.injEq] at hd
      rw [← hd]
      exact isDig_not_space h1 hh1
    simp only [strptimeFull, parseYear4_digits y1 y2 y3 y4 hy1 hy2 hy3 hy4,
      expectChar_self, parseMonth_two m1 m2 hm1 hm2 hmr1 hmr2,
      parseDay_two d1 d2 hd1 hd2 hdr1 hdr2, hsp1,
      parseHour_two h1 h2 hh1 hh2 hhr, parseMinSec_two i1 i2 hi1 hi2 hir,
      parseMinSec_two s1 s2 hs1 hs2 hsr]
    rw [if_pos ⟨trivial, hval⟩]
  have hstrip : pyStrip ⟨[y1, y2, y3, y4, '-', m1, m2, '-', d1, d2, ' ',
      h1, h2, ':', i1, i2, ':', s1, s2]⟩ =
      ⟨[y1, y2, y3, y4, '-', m1, m2, '-', d1, d2, ' ',
        h1, h2, ':', i1, i2, ':', s1, s2]⟩ := by
    show String.mk (pyStripList _) = String.mk _
    congr 1
    apply pyStripList_eq_self
    · intro c hc
      simp only [List.head?_cons, Option.some.injEq] at hc
      rw [← hc]
      exact isDig_not_space y1 hy1
    · intro c hc
      rw [show ([y1, y2, y3, y4, '-', m1, m2, '-', d1, d2, ' ',
          h1, h2, ':', i1, i2, ':', s1, s2].getLast?) = some s2 from rfl,
        Option.some.injEq] at hc
      rw [← hc]
      exact isDig_not_space s2 hs2
  refine ⟨?_, hstrip, ?_⟩
  · rw [show (String.mk [y1, y2, y3, y4, '-', m1, m2, '-', d1, d2, ' ',
      h1, h2, ':', i1, i2, ':', s1, s2]).data = [y1, y2, y3, y4, '-', m1, m2, '-',
      d1, d2, ' ', h1, h2, ':', i1, i2, ':', s1, s2] from rfl, hfull]
    rfl
  · intro heq
    exact List.cons_ne_nil _ _ (congrArg String.data heq)

/-- **C3 counterexample.**  As stated, the claim demands the invalid-format
error for every non-empty input other than the two fixed-width formats; but
`strptime`'s `%m`/`%d` directives also accept one-digit fields, so
`"2024-1-5"` — which is neither a strict `YYYY-MM-DD` nor a strict
`YYYY-MM-DD HH:MM:SS` string and is not whitespace — is accepted by the code
and normalized to `"2024-1-5 00:00:00"` with no error. -/
theorem C3_counterexample :
    strictFull "2024-1-5" = false ∧ strictDate "2024-1-5" = false
    ∧ pyStrip "2024-1-5" ≠ ""
    ∧ parse_time_input (some "2024-1-5") none = (some "2024-1-5 00:00:00", none) :=
  ⟨by decide, by decide, by decide, by decide⟩

/-- **C3 amended.**  For every default: a `None` or whitespace-only input
returns the default with no error; a strict `YYYY-MM-DD HH:MM:SS` input is
returned unchanged with no error; a strict `YYYY-MM-DD` input is returned
with `" 00:00:00"` appended and no error; and an input whose stripped text
is non-empty and accepted by neither `strptime` format (which is looser than
the strict shapes: 1-or-2-digit month/day/hour/minute/second fields and
whitespace runs are also accepted) yields no value and exactly the message
`Invalid format: '<stripped input>'. Use YYYY-MM-DD or YYYY-MM-DD HH:MM:SS`. -/
theorem C3_time_parse_spec (s : String) (d : Option String) :
    parse_time_input none d = (d, none)
    ∧ ((∀ c ∈ s.data, isPySpace c = true) → parse_time_input (some s) d = (d, none))
    ∧ (strictFull s = true → parse_time_input (some s) d = (some s, none))
    ∧ (strictDate s = true →
        parse_time_input (some s) d = (some (s ++ " 00:00:00"), none))
    ∧ (pyStrip s ≠ "" → strptimeFull (pyStrip s).data = none →
        strptimeDate (pyStrip s).data = none →
        parse_time_input (some s) d = (none, some (invalid_format_msg (pyStrip s)))) := by
  refine ⟨rfl, ?_, ?_, ?_, ?_⟩
  · intro hsp
    have ht : pyStrip s = "" := by
      show String.mk (pyStripList s.data) = ""
      rw [pyStripList_all_space s.data hsp]
    simp only [parse_time_input]
    rw [ht, if_pos rfl]
  · intro hf
    obtain ⟨hsome, hstrip, hne⟩ := strictFull_facts s hf
    simp only [parse_time_input]
    rw [hstrip, if_neg hne, if_pos hsome]
  · intro hd0
    obtain ⟨hsome, hfull, hstrip, hne⟩ := strictDate_facts s hd0
    simp only [parse_time_input]
    rw [hstrip, if_neg hne, hfull]
    rw [if_neg (by simp), if_pos hsome]
  · intro hne hfull hdate
    simp only [parse_time_input]
    rw [if_neg hne, hfull, hdate]
    rw [if_neg (by simp), if_neg (by simp)]

/-- Witness for C3's amended theorem: a strict date is normalized by
appending midnight, a strict full timestamp is returned unchanged, and an
empty input returns the default. -/
theorem C3_time_parse_spec_witness :
    parse_time_input (some "2024-01-15") (some "2024-01-01 00:00:00") =
      (some ("2024-01-15" ++ " 00:00:00"), none)
    ∧ parse_time_input (some "2024-01-15 14:30:00") (some "x") =
      (some "2024-01-15 14:30:00", none)
    ∧ parse_time_input (some "") (some "2024-01-01 00:00:00") =
      (some "2024-01-01 00:00:00", none) :=
  ⟨(C3_time_parse_spec "2024-01-15" (some "2024-01-01 00:00:00")).2.2.2.1 (by decide),
   (C3_time_parse_spec "2024-01-15 14:30:00" (some "x")).2.2.1 (by decide),
   (C3_time_parse_spec "" (some "2024-01-01 00:00:00")).2.1 (by decide)⟩

/-- **C4** (confirmed).  The time-range update transition is atomic on
rejection: a parse error on either side (start checked first) aborts the
transition with that error and the stored time range, start echo and end
echo all kept (`no_update`) — never a partial update; when both sides parse
to non-empty full timestamps with start ≥ end it aborts with exactly
`Start time must be before end time`, again keeping everything; and only
when start < end is the stored time range replaced wholesale by the new
pair. -/
theorem C4_time_range_atomicity (si ei : Option String)
    (fr : Option (Option String × Option String)) (msg : String) (ss ee : String)
    (ds de : Nat × Nat × Nat × Nat × Nat × Nat) :
    ((parse_time_input si (fr_min fr)).2 = some msg →
      update_time_range si ei false fr = (Upd.keep, msg, Upd.keep, Upd.keep))
    ∧ ((parse_time_input si (fr_min fr)).2 = none →
        (parse_time_input ei (fr_max fr)).2 = some msg →
      update_time_range si ei false fr = (Upd.keep, msg, Upd.keep, Upd.keep))
    ∧ (parse_time_input si (fr_min fr) = (some ss, none) →
        parse_time_input ei (fr_max fr) = (some ee, none) →
        ss ≠ "" → ee ≠ "" →
        strptimeFull ss.data = some ds → strptimeFull ee.data = some de →
        dtKey de ≤ dtKey ds →
      update_time_range si ei false fr =
        (Upd.keep, "Start time must be before end time", Upd.keep, Upd.keep))
    ∧ (parse_time_input si (fr_min fr) = (some ss, none) →
        parse_time_input ei (fr_max fr) = (some ee, none) →
        ss ≠ "" → ee ≠ "" →
        strptimeFull ss.data = some ds → strptimeFull ee.data = some de →
        dtKey ds < dtKey de →
      update_time_range si ei false fr =
        (Upd.set (some (some ss, some ee)), "", Upd.keep, Upd.keep)) := by
  refine ⟨?_, ?_, ?_, ?_⟩
  · intro h
    simp [update_time_range, h]
  · intro h1 h2
    simp [update_time_range, h1, h2]
  · intro hps hpe hss hee hfs hfe hord
    simp [update_time_range, hps, hpe, hfs, hfe, hss, hee, hord]
  · intro hps hpe hss hee hfs hfe hlt
    have hd : ¬ (dtKey de ≤ dtKey ds) := not_le.mpr hlt
    simp [update_time_range, hps, hpe, hfs, hfe, hss, hee, hd]

/-- Witness for C4: the inverted pair start `2024-01-20 00:00:00`, end
`2024-01-10 00:00:00` is rejected with the ordering error and everything
kept, while the well-ordered bare dates `2024-01-10` / `2024-01-20` are
normalized and replace the stored range wholesale. -/
theorem C4_time_range_atomicity_witness :
    update_time_range (some "2024-01-20 00:00:00") (some "2024-01-10 00:00:00")
      false none = (Upd.keep, "Start time must be before end time", Upd.keep, Upd.keep)
    ∧ update_time_range (some "2024-01-10") (some "2024-01-20") false none =
      (Upd.set (some (some "2024-01-10 00:00:00", some "2024-01-20 00:00:00")),
        "", Upd.keep, Upd.keep) :=
  ⟨(C4_time_range_atomicity (some "2024-01-20 00:00:00")
      (some "2024-01-10 00:00:00") none "" "2024-01-20 00:00:00" "2024-01-10 00:00:00"
      (2024, 1, 20, 0, 0, 0) (2024, 1, 10, 0, 0, 0)).2.2.1
    (by decide) (by decide) (by decide) (by decide) (by decide) (by decide) (by decide),
   (C4_time_range_atomicity (some "2024-01-10") (some "2024-01-20") none ""
      "2024-01-10 00:00:00" "2024-01-20 00:00:00"
      (2024, 1, 10, 0, 0, 0) (2024, 1, 20, 0, 0, 0)).2.2.2
    (by decide) (by decide) (by decide) (by decide) (by decide) (by decide) (by decide)⟩

/-- **C9 counterexample.**  The claim says a missing required companion
option is surfaced as an inline user-visible message with the transition
aborted and prior state retained, rather than being fatal.  In the code: an
exceptions table without its count column (and with a geo ranking) raises a
`ValueError` at construction — fatal, no app and no inline message — and a
count column supplied without an exceptions table produces no error of any
kind (it is silently ignored and an app is returned). -/
theorem C9_counterexample :
    visualize_companion_validation true true false =
      ApiOutcome.raised "exception_count_col is required when df_exceptions is provided"
    ∧ visualize_companion_validation true true false ≠ ApiOutcome.app true
    ∧ visualize_companion_validation true true false ≠ ApiOutcome.app false
    ∧ visualize_companion_validation true false true = ApiOutcome.app false :=
  ⟨rfl, by decide, by decide, rfl⟩

/-- **C9 amended.**  Missing companion options are handled at construction
time, not as inline transition errors: with an exceptions table present, a
missing exception-count column raises a fatal `ValueError` (message
`exception_count_col is required when df_exceptions is provided`); with the
count column present but no geo-enabled ranking table, a fatal `ValueError`
(message `df_exceptions requires ranking_df with latitude/longitude columns
for map display`); with both present the app is built with the exceptions
route; and with no exceptions table, a supplied exception-count column is
silently ignored and the app is built without the exceptions route. -/
theorem C9_companion_validation (geo exc cnt : Bool) :
    (exc = true → cnt = false →
      visualize_companion_validation geo exc cnt =
        ApiOutcome.raised "exception_count_col is required when df_exceptions is provided")
    ∧ (exc = true → cnt = true → geo = false →
      visualize_companion_validation geo exc cnt =
        ApiOutcome.raised
          "df_exceptions requires ranking_df with latitude/longitude columns for map display")
    ∧ (exc = true → cnt = true → geo = true →
      visualize_companion_validation geo exc cnt = ApiOutcome.app true)
    ∧ (exc = false → visualize_companion_validation geo exc cnt = ApiOutcome.app false) := by
  revert geo exc cnt
  decide

/-- Witness for C9's amended theorem at the three concrete flag
combinations. -/
theorem C9_companion_validation_witness :
    visualize_companion_validation true true false =
      ApiOutcome.raised "exception_count_col is required when df_exceptions is provided"
    ∧ visualize_companion_validation false true true =
      ApiOutcome.raised
        "df_exceptions requires ranking_df with latitude/longitude columns for map display"
    ∧ visualize_companion_validation true true true = ApiOutcome.app true
    ∧ visualize_companion_validation false false true = ApiOutcome.app false :=
  ⟨(C9_companion_validation true true false).1 rfl rfl,
   (C9_companion_validation false true true).2.1 rfl rfl rfl,
   (C9_companion_validation true true true).2.2.1 rfl rfl rfl,
   (C9_companion_validation false false true).2.2.2 rfl⟩

end TsUtils
